import Mathlib

/-!
# postgresql-idn: flag-constant resolver and encoding bridge

A shallow embedding of the glue code of `idn.c`: the constant table and its
comparison function, the table sort done by `_PG_init`, the lookups
`_parse_constant` and `parse_constant_multi`, the printable-ASCII scan
`ascii_check`, the two encoding-bridge helpers `text_to_utf8` and
`utf8_to_text`, and the nine SQL-callable functions built on them.

Conventions.
* A byte is a `Nat`; a C string is the list of its bytes before the terminating
  NUL, and every function that reads a C string stops at the first 0 byte.
* What `idn.c` takes from other libraries is modelled next to its use: the
  functions `pg_strcasecmp`, `qsort`, `bsearch`, `strchr`, `strlen` by their
  library definition, the process locale (`CtypeLocale`), the enumerators of the
  libidn and libidn2 headers (`LibidnHeaders`) and the encoding conversion of
  the database (`Backend`) as parameters.
* A call that leaves through `elog(ERROR, ...)` has the outcome `Except.error`;
  so has a `palloc` of more than `MaxAllocSize` bytes. The call `pfree(NULL)`,
  which ends the backend, is the outcome `PgError.pfree_null`.
* A SQL-callable function takes its arguments as a list (`none` is SQL NULL) and
  gives a `Run`: its library calls and warnings in order, and its result. The
  functions of libidn and libidn2 (`IdnLibrary`) and their return codes
  (`ReturnCodes`) are parameters.
-/

namespace Idn

/-! ## Data model -/

/-- The enumeration `enum constant_scope`. -/
inductive constant_scope where
  | SCOPE_STRINGPREP
  | SCOPE_IDNA
  | SCOPE_IDNA2
  | SCOPE_PUNYCODE
  deriving DecidableEq, Repr

/-- The integer value of each enumerator (the enumeration starts at 1). -/
def constant_scope.toNat : constant_scope → Nat
  | .SCOPE_STRINGPREP => 1
  | .SCOPE_IDNA => 2
  | .SCOPE_IDNA2 => 3
  | .SCOPE_PUNYCODE => 4

/-- The record `struct idn_constants_struct`. -/
structure idn_constants_struct where
  scope : constant_scope
  name : List Nat
  value : Int
  description : String
  deriving DecidableEq, Repr

/-- The bytes of an ASCII string literal of the source. -/
def bytes (s : String) : List Nat := s.toList.map Char.toNat

/-- The flag enumerators that `idn.c` takes from `stringprep.h`, `idna.h` and
`idn2.h`; their values are not part of `idn.c`. -/
structure LibidnHeaders where
  STRINGPREP_NO_NFKC : Int
  STRINGPREP_NO_BIDI : Int
  STRINGPREP_NO_UNASSIGNED : Int
  IDNA_ALLOW_UNASSIGNED : Int
  IDNA_USE_STD3_ASCII_RULES : Int
  IDN2_NFC_INPUT : Int
  IDN2_ALABEL_ROUNDTRIP : Int

/-- The values the enumerators have in the headers of libidn and libidn2. -/
def libidn : LibidnHeaders where
  STRINGPREP_NO_NFKC := 1
  STRINGPREP_NO_BIDI := 2
  STRINGPREP_NO_UNASSIGNED := 4
  IDNA_ALLOW_UNASSIGNED := 1
  IDNA_USE_STD3_ASCII_RULES := 2
  IDN2_NFC_INPUT := 1
  IDN2_ALABEL_ROUNDTRIP := 2

/-- Every flag enumerator of the headers is a non-negative `int`. -/
def LibidnHeaders.NonNeg (H : LibidnHeaders) : Prop :=
  0 ≤ H.STRINGPREP_NO_NFKC ∧ 0 ≤ H.STRINGPREP_NO_BIDI ∧ 0 ≤ H.STRINGPREP_NO_UNASSIGNED ∧
  0 ≤ H.IDNA_ALLOW_UNASSIGNED ∧ 0 ≤ H.IDNA_USE_STD3_ASCII_RULES ∧
  0 ≤ H.IDN2_NFC_INPUT ∧ 0 ≤ H.IDN2_ALABEL_ROUNDTRIP

/-- The static array `_constants`, in the order in which the source writes it. -/
def _constants (H : LibidnHeaders) : List idn_constants_struct :=
  [ { scope := .SCOPE_STRINGPREP
      name := bytes "STRINGPREP_FLAG_NONE"
      value := 0
      description := "A value representing no flags supplied." },
    { scope := .SCOPE_STRINGPREP
      name := bytes "STRINGPREP_FLAG_NO_NFKC"
      value := H.STRINGPREP_NO_NFKC
      description := "Disable the NFKC normalization, as well as selecting " ++
                     "the non-NFKC case folding tables. Usually the profile " ++
                     "specifies BIDI and NFKC settings, and applications " ++
                     "should not override it unless in special situations." },
    { scope := .SCOPE_STRINGPREP
      name := bytes "STRINGPREP_FLAG_NO_BIDI"
      value := H.STRINGPREP_NO_BIDI
      description := "Disable the BIDI step. Usually the profile specifies BIDI and NFKC settings, and applications should not override it unless in special situations." },
    { scope := .SCOPE_STRINGPREP
      name := bytes "STRINGPREP_FLAG_NO_UNASSIGNED"
      value := H.STRINGPREP_NO_UNASSIGNED
      description := "Make the library return with an error if string contains unassigned characters according to profile." },
    { scope := .SCOPE_IDNA
      name := bytes "IDNA_FLAG_NONE"
      value := 0
      description := "A value representing no flags supplied." },
    { scope := .SCOPE_IDNA
      name := bytes "IDNA_FLAG_ALLOW_UNASSIGNED"
      value := H.IDNA_ALLOW_UNASSIGNED
      description := "Allow unassigned Unicode code points." },
    { scope := .SCOPE_IDNA
      name := bytes "IDNA_FLAG_USE_STD3_ASCII_RULES"
      value := H.IDNA_USE_STD3_ASCII_RULES
      description := "Check output to make sure it is a STD3 conforming host name." },
    { scope := .SCOPE_IDNA2
      name := bytes "IDN2_FLAG_NONE"
      value := 0
      description := "A value representing no flags supplied." },
    { scope := .SCOPE_IDNA2
      name := bytes "IDN2_FLAG_NFC_INPUT"
      value := H.IDN2_NFC_INPUT
      description := "Apply NFC normalization on input." },
    { scope := .SCOPE_IDNA2
      name := bytes "IDN2_FLAG_ALABEL_ROUNDTRIP"
      value := H.IDN2_ALABEL_ROUNDTRIP
      description := "Apply additional round-trip conversion of A-label inputs." } ]

/-! ## Comparison of table entries -/

/-- The part of the process locale that `pg_strcasecmp` consults for bytes with
the high bit set: the C library's `isupper` and `tolower`. -/
structure CtypeLocale where
  isupper : Nat → Bool
  tolower : Nat → Nat

/-- The "C" locale: no byte with the high bit set is an upper-case letter. -/
def cLocale : CtypeLocale where
  isupper := fun _ => false
  tolower := fun c => c

/-- A locale whose lower-casing never turns a byte with the high bit set into a
7-bit byte (so it cannot produce an ASCII character or NUL). True of the "C"
locale and of every locale with a multi-byte encoding such as UTF-8. -/
def CtypeLocale.KeepsHighBit (L : CtypeLocale) : Prop :=
  ∀ c, 128 ≤ c → L.isupper c = true → 128 ≤ L.tolower c % 256

/-- A locale whose lower-casing never turns a byte with the high bit set into
NUL. The C library lower-cases a letter into a letter, so this holds in every
locale of the C library, the single-byte ones included. -/
def CtypeLocale.LowerNotNul (L : CtypeLocale) : Prop :=
  ∀ c, 128 ≤ c → L.isupper c = true → L.tolower c % 256 ≠ 0

/-- The high-bit part of a Turkish single-byte locale (ISO-8859-9): the bytes
0xC0..0xDE other than 0xD7 are upper-case letters; the dotted capital I, 0xDD,
lower-cases to the ASCII letter `i`, the others to the byte 0x20 above. -/
def latin5Locale : CtypeLocale where
  isupper := fun c => decide (0xC0 ≤ c ∧ c ≤ 0xDE ∧ c ≠ 0xD7)
  tolower := fun c =>
    if c = 0xDD then 0x69
    else if 0xC0 ≤ c ∧ c ≤ 0xDE ∧ c ≠ 0xD7 then c + 0x20
    else c

/-- The case folding `pg_strcasecmp` applies to one `unsigned char`: `A`..`Z`
get `'a' - 'A'` added, a byte with the high bit set that the locale calls upper
case goes through the locale's `tolower` (stored back into an `unsigned char`),
every other byte is unchanged. -/
def fold (L : CtypeLocale) (ch : Nat) : Nat :=
  if 65 ≤ ch ∧ ch ≤ 90 then ch + 32
  else if 128 ≤ ch ∧ L.isupper ch = true then L.tolower ch % 256
  else ch

/-- One turn of the loop of `pg_strcasecmp` on the bytes `ch1`, `ch2` read from
the two strings: `some r` when the function returns `r` in this turn, `none`
when the loop goes on to the next pair of bytes. -/
def pg_strcasecmp_step (L : CtypeLocale) (ch1 ch2 : Nat) : Option Int :=
  if ch1 ≠ ch2 then
    let c1 := fold L ch1
    let c2 := fold L ch2
    if c1 ≠ c2 then some ((c1 : Int) - (c2 : Int))
    else if c1 = 0 then some 0
    else none
  else if ch1 = 0 then some 0
  else none

/-- PostgreSQL's `pg_strcasecmp(s1, s2)` on two C strings. A list that is used
up reads as the terminating NUL. -/
def pg_strcasecmp (L : CtypeLocale) : List Nat → List Nat → Int
  | [], s2 => (pg_strcasecmp_step L 0 (s2.headD 0)).getD 0
  | ch1 :: s1, s2 =>
    match pg_strcasecmp_step L ch1 (s2.headD 0) with
    | some r => r
    | none => pg_strcasecmp L s1 s2.tail

/-- The comparison function `constants_compare`: by scope, then by name with
`pg_strcasecmp`. -/
def constants_compare (L : CtypeLocale) (a b : idn_constants_struct) : Int :=
  if a.scope.toNat < b.scope.toNat then -1
  else if a.scope.toNat > b.scope.toNat then 1
  else pg_strcasecmp L a.name b.name

/-! ## Sorting and searching the table -/

/-- Insertion of one element into a list that is sorted under `compar`. -/
def insertSorted {α : Type} (compar : α → α → Int) (x : α) : List α → List α
  | [] => [x]
  | y :: ys => if compar x y ≤ 0 then x :: y :: ys else y :: insertSorted compar x ys

/-- The C library's `qsort(base, nmemb, size, compar)`, as an insertion sort. -/
def qsort {α : Type} (base : List α) (compar : α → α → Int) : List α :=
  base.foldr (insertSorted compar) []

/-- The table part of `_PG_init`: the array is sorted with `constants_compare`. -/
def _PG_init (L : CtypeLocale) (table : List idn_constants_struct) : List idn_constants_struct :=
  qsort table (constants_compare L)

/-- The loop of the C library's `bsearch` on the index interval `[l, u)`; the
first argument bounds the number of turns. -/
def bsearch_loop {α : Type} (key : α) (base : List α) (compar : α → α → Int) :
    Nat → Nat → Nat → Option α
  | 0, _, _ => none
  | fuel + 1, l, u =>
    if l < u then
      let idx := (l + u) / 2
      match base[idx]? with
      | none => none
      | some p =>
        let comparison := compar key p
        if comparison < 0 then bsearch_loop key base compar fuel l idx
        else if comparison > 0 then bsearch_loop key base compar fuel (idx + 1) u
        else some p
    else none

/-- The C library's `bsearch(key, base, nmemb, size, compar)`; `none` is the
NULL result. Each turn shrinks a non-empty interval, so `nmemb + 1` turns are
never used up. -/
def bsearch {α : Type} (key : α) (base : List α) (compar : α → α → Int) : Option α :=
  bsearch_loop key base compar (base.length + 1) 0 base.length

/-- The lookup `_parse_constant(scope, str)` in the table `table` (the current
content of the array `_constants`). The fields `value` and `description` of the
key are not written by the source and not read by `constants_compare`. -/
def _parse_constant (L : CtypeLocale) (table : List idn_constants_struct)
    (scope : constant_scope) (str : List Nat) : Int :=
  let key : idn_constants_struct := { scope := scope, name := str, value := 0, description := "" }
  match bsearch key table (constants_compare L) with
  | none => -1
  | some res => res.value

/-- The table in the Ready state: `_constants` after `_PG_init`. -/
def readyTable (L : CtypeLocale) (H : LibidnHeaders) : List idn_constants_struct :=
  _PG_init L (_constants H)

/-- The table `_PG_init` leaves behind, written out: `_constants` in the order of
`constants_compare`. That `_PG_init` computes this list is `readyTable_eq`. -/
def sortedConstants (H : LibidnHeaders) : List idn_constants_struct :=
  [ { scope := .SCOPE_STRINGPREP
      name := bytes "STRINGPREP_FLAG_NO_BIDI"
      value := H.STRINGPREP_NO_BIDI
      description := "Disable the BIDI step. Usually the profile specifies BIDI and NFKC settings, and applications should not override it unless in special situations." },
    { scope := .SCOPE_STRINGPREP
      name := bytes "STRINGPREP_FLAG_NO_NFKC"
      value := H.STRINGPREP_NO_NFKC
      description := "Disable the NFKC normalization, as well as selecting " ++
                     "the non-NFKC case folding tables. Usually the profile " ++
                     "specifies BIDI and NFKC settings, and applications " ++
                     "should not override it unless in special situations." },
    { scope := .SCOPE_STRINGPREP
      name := bytes "STRINGPREP_FLAG_NO_UNASSIGNED"
      value := H.STRINGPREP_NO_UNASSIGNED
      description := "Make the library return with an error if string contains unassigned characters according to profile." },
    { scope := .SCOPE_STRINGPREP
      name := bytes "STRINGPREP_FLAG_NONE"
      value := 0
      description := "A value representing no flags supplied." },
    { scope := .SCOPE_IDNA
      name := bytes "IDNA_FLAG_ALLOW_UNASSIGNED"
      value := H.IDNA_ALLOW_UNASSIGNED
      description := "Allow unassigned Unicode code points." },
    { scope := .SCOPE_IDNA
      name := bytes "IDNA_FLAG_NONE"
      value := 0
      description := "A value representing no flags supplied." },
    { scope := .SCOPE_IDNA
      name := bytes "IDNA_FLAG_USE_STD3_ASCII_RULES"
      value := H.IDNA_USE_STD3_ASCII_RULES
      description := "Check output to make sure it is a STD3 conforming host name." },
    { scope := .SCOPE_IDNA2
      name := bytes "IDN2_FLAG_ALABEL_ROUNDTRIP"
      value := H.IDN2_ALABEL_ROUNDTRIP
      description := "Apply additional round-trip conversion of A-label inputs." },
    { scope := .SCOPE_IDNA2
      name := bytes "IDN2_FLAG_NFC_INPUT"
      value := H.IDN2_NFC_INPUT
      description := "Apply NFC normalization on input." },
    { scope := .SCOPE_IDNA2
      name := bytes "IDN2_FLAG_NONE"
      value := 0
      description := "A value representing no flags supplied." } ]

/-! ## Parsing a list of flag names -/

/-- The ways a call leaves through `elog(ERROR, ...)` or `ereport(ERROR, ...)`. -/
inductive PgError where
  /-- The report "Unknown constant name: %s" with its argument. -/
  | unknown_constant (name : List Nat)
  /-- The report "unexpected number of arguments: %d". -/
  | unexpected_nargs (nargs : Nat)
  /-- The report of `check_stringprep`. -/
  | stringprep_version
  /-- An error raised inside `pg_do_encoding_conversion`. -/
  | encoding_conversion
  /-- The report "Only one of ulabel, alabel may be NULL." of `libidn2_register`. -/
  | both_labels_null
  /-- The report "invalid memory alloc request size" of `palloc` for a size above
  `MaxAllocSize`. -/
  | invalid_alloc_request (size : Nat)
  /-- Not a report: the call `pfree(NULL)`, which PostgreSQL does not allow; the
  behaviour is undefined and the backend crashes. -/
  | pfree_null
  deriving DecidableEq, Repr

deriving instance DecidableEq for Except

/-- The C string that starts at the beginning of a buffer: the bytes before the
first NUL. -/
def cstring (buf : List Nat) : List Nat := buf.takeWhile (fun b => b ≠ 0)

/-- The C library's `strlen`. -/
def strlen (buf : List Nat) : Nat := (cstring buf).length

/-- The C library's `strchr(str, c)`: the offset of the first byte equal to `c`
in the C string, `none` for the NULL result. -/
def strchr : List Nat → Nat → Option Nat
  | [], _ => none
  | b :: rest, c =>
    if b = c then some 0
    else if b = 0 then none
    else (strchr rest c).map (fun i => i + 1)

/-- The `while (s)` loop of `parse_constant_multi`. `str` holds the bytes from
the pointer `str` on, `ret` is the mask so far. When `strchr` finds a bar at
offset `i`, the source overwrites it with NUL, so the C string at `str` is
`str.take i`, and `str` moves to `s + 1`. Only non-negative values are ever
OR-ed into `ret`, so the `int` cannot overflow. The first argument bounds the
number of turns; `none` means the bound was used up. -/
def parse_constant_multi_loop (L : CtypeLocale) (table : List idn_constants_struct)
    (scope : constant_scope) : Nat → List Nat → Int → Option (Except PgError Int)
  | 0, _, _ => none
  | fuel + 1, str, ret =>
    let s := strchr str 124
    let segment := match s with
      | some i => str.take i
      | none => str
    let temp := _parse_constant L table scope segment
    if temp < 0 then some (.error (.unknown_constant (cstring segment)))
    else
      match s with
      | some i => parse_constant_multi_loop L table scope fuel (str.drop (i + 1)) (Int.lor ret temp)
      | none => some (.ok (Int.lor ret temp))

/-- The function `parse_constant_multi(scope, str)`. Every turn of the loop but
the last consumes a bar, so `str.length + 1` turns are never used up. -/
def parse_constant_multi (L : CtypeLocale) (table : List idn_constants_struct)
    (scope : constant_scope) (str : List Nat) : Option (Except PgError Int) :=
  parse_constant_multi_loop L table scope (str.length + 1) str 0

/-! ## The printable-ASCII scan -/

/-- The `for` loop of `ascii_check` from index `i` on, with `n` turns left. -/
def ascii_check_loop (src : List Nat) : Nat → Nat → Bool
  | 0, _ => true
  | n + 1, i =>
    if 0x20 ≤ src.getD i 0 ∧ src.getD i 0 ≤ 0x7E then ascii_check_loop src n (i + 1)
    else false

/-- The function `ascii_check(src, slen)`. -/
def ascii_check (src : List Nat) (slen : Nat) : Bool :=
  ascii_check_loop src slen 0

/-! ## The encoding bridge -/

/-- A `text` value: the payload `VARDATA_ANY(arg)` of `VARSIZE_ANY_EXHDR(arg)`
bytes. -/
structure text where
  data : List Nat
  deriving DecidableEq, Repr

/-- The encoding identifiers of PostgreSQL that `idn.c` can meet. -/
inductive pg_enc where
  | PG_SQL_ASCII
  | PG_UTF8
  | other (id : Nat)
  deriving DecidableEq, Repr

/-- What `pg_do_encoding_conversion(src, len, src_encoding, dest_encoding)` does. -/
inductive Converted where
  /-- No conversion: the returned pointer is `src` itself. -/
  | same
  /-- A conversion: a new buffer that holds `str` and a terminating NUL. -/
  | fresh (str : List Nat)
  /-- The conversion raises an error. -/
  | failed
  deriving DecidableEq, Repr

/-- The database backend, as far as the encoding bridge uses it. The conversion
is given the `len` bytes at `src`. -/
structure Backend where
  GetDatabaseEncoding : pg_enc
  pg_do_encoding_conversion : List Nat → pg_enc → pg_enc → Converted

/-- PostgreSQL's rule that a conversion between equal encodings returns `src`. -/
def Backend.SameEncodingReturnsSrc (B : Backend) : Prop :=
  ∀ src e, B.pg_do_encoding_conversion src e e = .same

/-- A backend whose database encoding is UTF-8 and that converts nothing. -/
def utf8Backend : Backend where
  GetDatabaseEncoding := .PG_UTF8
  pg_do_encoding_conversion := fun _ _ _ => .same

/-- Latin-1 to UTF-8: a byte from 128 on becomes a lead byte and a continuation
byte. -/
def utf8_of_latin1 (src : List Nat) : List Nat :=
  src.flatMap (fun b => if b < 128 then [b] else [192 + b / 64, 128 + b % 64])

/-- UTF-8 to Latin-1: a lead byte (kept in the first argument) and its
continuation byte become one byte. -/
def latin1_of_utf8 : Option Nat → List Nat → List Nat
  | _, [] => []
  | none, b :: rest =>
    if 192 ≤ b then latin1_of_utf8 (some b) rest else b :: latin1_of_utf8 none rest
  | some lead, b :: rest => ((lead - 192) * 64 + (b - 128)) :: latin1_of_utf8 none rest

/-- An example of a backend whose database encoding is not UTF-8: Latin-1, where
a conversion changes the number of bytes of every non-ASCII character. -/
def latin1Backend : Backend where
  GetDatabaseEncoding := .other 8
  pg_do_encoding_conversion := fun src from_enc to_enc =>
    if src = [] then .same
    else if from_enc = to_enc then .same
    else if to_enc = .PG_UTF8 then .fresh (utf8_of_latin1 src)
    else .fresh (latin1_of_utf8 none src)

/-- Where a `char *` that `text_to_utf8` returns points to. -/
inductive Pointer where
  /-- The pointer `src`, into the payload of the argument. -/
  | src
  /-- The start of a newly allocated buffer with these bytes. -/
  | allocated (buf : List Nat)
  deriving DecidableEq, Repr

/-- The bytes readable at a pointer, given the argument `arg`. -/
def Pointer.deref (arg : text) : Pointer → List Nat
  | .src => arg.data
  | .allocated buf => buf

/-- The three results of `text_to_utf8`: the returned pointer and the two
output parameters. -/
structure Utf8Result where
  utf8_src : Pointer
  utf8_srclen : Nat
  needs_free : Bool
  deriving DecidableEq, Repr

/-- The function `text_to_utf8(arg, &utf8_srclen, &needs_free, force_new)`. -/
def text_to_utf8 (B : Backend) (arg : text) (force_new : Bool) : Except PgError Utf8Result :=
  let src := arg.data
  let srclen := arg.data.length
  match B.pg_do_encoding_conversion (src.take srclen) B.GetDatabaseEncoding .PG_UTF8 with
  | .failed => .error .encoding_conversion
  | .same =>
    if force_new then
      .ok { utf8_src := .allocated (src.take srclen ++ [0]), utf8_srclen := srclen, needs_free := true }
    else
      .ok { utf8_src := .src, utf8_srclen := srclen, needs_free := false }
  | .fresh str =>
    .ok { utf8_src := .allocated (str ++ [0]), utf8_srclen := strlen (str ++ [0]), needs_free := true }

/-- PostgreSQL's `cstring_to_text_with_len(s, len)`: a `text` with a copy of the
first `len` bytes at `s`. -/
def cstring_to_text_with_len (s : List Nat) (len : Nat) : text :=
  { data := s.take len }

/-- The function `utf8_to_text(src, srclen)`; `src` holds the bytes readable at
the pointer. -/
def utf8_to_text (B : Backend) (src : List Nat) (srclen : Nat) : Except PgError text :=
  match B.pg_do_encoding_conversion (src.take srclen) .PG_UTF8 B.GetDatabaseEncoding with
  | .failed => .error .encoding_conversion
  | .same => .ok (cstring_to_text_with_len src srclen)
  | .fresh str => .ok (cstring_to_text_with_len (str ++ [0]) (strlen (str ++ [0])))

/-! ## The SQL-callable functions -/

/-- A `text *` as `PG_GETARG_TEXT_PP` hands it over: a datum in memory with a
1-byte or a 4-byte length header, its payload, and the bytes that lie behind the
datum in memory. Datums read from a table row with a payload of up to 126 bytes
have the 1-byte header. -/
structure varlena where
  short_header : Bool
  data : List Nat
  behind : List Nat
  deriving DecidableEq, Repr

/-- The text value of a datum, as the macros `VARDATA_ANY` and
`VARSIZE_ANY_EXHDR` read it: the payload, whatever the header is. -/
def varlena.toText (v : varlena) : text := { data := v.data }

/-- The four bytes of a 32-bit word in memory (little-endian). -/
def le32 (w : Nat) : List Nat := [w % 256, w / 256 % 256, w / 65536 % 256, w / 16777216 % 256]

/-- The bytes in memory from the start of a datum on (little-endian layout of
`postgres.h`): a 4-byte header holds the total size shifted left by two bits, a
1-byte header holds the total size shifted left by one bit, plus 1. -/
def varlena.image (v : varlena) : List Nat :=
  (if v.short_header then [(v.data.length + 1) * 2 + 1] else le32 ((v.data.length + 4) * 4))
    ++ v.data ++ v.behind

/-- The constant `VARHDRSZ`. -/
def VARHDRSZ : Nat := 4

/-- The macro `VARSIZE(PTR)`: the size field of a 4-byte header at `PTR`. -/
def VARSIZE (ptr : List Nat) : Nat :=
  ((ptr.getD 0 0 + 256 * ptr.getD 1 0 + 65536 * ptr.getD 2 0 + 16777216 * ptr.getD 3 0) / 4)
    % 2 ^ 30

/-- The macro `VARDATA(PTR)`: the address behind a 4-byte header at `PTR`. -/
def VARDATA (ptr : List Nat) : List Nat := ptr.drop 4

/-- The constant `MaxAllocSize` of PostgreSQL: `palloc` raises an error for a
larger request. -/
def MaxAllocSize : Nat := 0x3fffffff

/-- PostgreSQL's `text_to_cstring`: a NUL-terminated copy of the payload. The
terminating NUL is the end of the list. -/
def text_to_cstring (t : text) : List Nat := t.data

/-- The return codes of libidn and libidn2 that `idn.c` tests; their values are
not part of `idn.c`. -/
structure ReturnCodes where
  STRINGPREP_OK : Int
  PUNYCODE_SUCCESS : Int
  IDNA_SUCCESS : Int
  PR29_SUCCESS : Int
  PR29_PROBLEM : Int
  IDN2_OK : Int

/-- The values the return codes have in the headers of libidn and libidn2. -/
def libidnCodes : ReturnCodes where
  STRINGPREP_OK := 0
  PUNYCODE_SUCCESS := 0
  IDNA_SUCCESS := 0
  PR29_SUCCESS := 0
  PR29_PROBLEM := 1
  IDN2_OK := 0

/-- The functions of libidn and libidn2 that `idn.c` calls. A string argument is
given as the bytes readable at the pointer; a function with a return code gives
the code and what it stored through its output pointer; a function that returns
a pointer gives `none` for NULL. -/
structure IdnLibrary where
  /-- `stringprep_profile(in, &out, profile, flags)`. -/
  stringprep_profile : List Nat → List Nat → Int → Int × List Nat
  /-- `stringprep_utf8_to_ucs4(str, len, &items_written)`. -/
  stringprep_utf8_to_ucs4 : List Nat → Nat → Option (List Nat)
  /-- `punycode_encode(input_length, input, NULL, &output_length, output)`, given
  the input and the capacity `*output_length`. -/
  punycode_encode : List Nat → Nat → Int × List Nat
  /-- `punycode_decode(input_length, input, &output_length, output, NULL)`, given
  the input length, the input and the capacity `*output_length`. -/
  punycode_decode : Nat → List Nat → Nat → Int × List Nat
  /-- `stringprep_ucs4_to_utf8(str, len, NULL, &items_written)`. -/
  stringprep_ucs4_to_utf8 : List Nat → Option (List Nat)
  /-- `stringprep_utf8_nfkc_normalize(str, len)`. -/
  stringprep_utf8_nfkc_normalize : List Nat → Nat → Option (List Nat)
  /-- `idna_to_unicode_8z8z(input, &output, flags)`. -/
  idna_to_unicode_8z8z : List Nat → Int → Int × List Nat
  /-- `idna_to_ascii_8z(input, &output, flags)`. -/
  idna_to_ascii_8z : List Nat → Int → Int × List Nat
  /-- `pr29_8z(in)`. -/
  pr29_8z : List Nat → Int
  /-- `idn2_lookup_u8(src, &lookupname, flags)`. -/
  idn2_lookup_u8 : List Nat → Int → Int × List Nat
  /-- `idn2_register_u8(ulabel, alabel, &insertname, flags)`. -/
  idn2_register_u8 : Option (List Nat) → Option (List Nat) → Int → Int × List Nat

/-- A call of a library function, with its arguments and what it returned. -/
inductive LibCall where
  | stringprep_profile (src profile : List Nat) (flags : Int) (rc : Int)
  | stringprep_utf8_to_ucs4 (src : List Nat) (len : Nat) (ret : Option (List Nat))
  | punycode_encode (input : List Nat) (capacity : Nat) (rc : Int)
  | punycode_decode (srclen : Nat) (src : List Nat) (capacity : Nat) (rc : Int)
  | stringprep_ucs4_to_utf8 (str : List Nat) (ret : Option (List Nat))
  | stringprep_utf8_nfkc_normalize (src : List Nat) (len : Nat) (ret : Option (List Nat))
  | idna_to_unicode_8z8z (src : List Nat) (flags : Int) (rc : Int)
  | idna_to_ascii_8z (src : List Nat) (flags : Int) (rc : Int)
  | pr29_8z (src : List Nat) (rc : Int)
  | idn2_lookup_u8 (src : List Nat) (flags : Int) (rc : Int)
  | idn2_register_u8 (ulabel alabel : Option (List Nat)) (flags : Int) (rc : Int)
  deriving DecidableEq, Repr

/-- What a call does that can be observed besides its result: the calls of
library functions and the reports of level WARNING, in order. -/
inductive Event where
  | call (c : LibCall)
  | WARNING (msg : String)
  deriving DecidableEq, Repr

/-- What a SQL-callable function returns. -/
inductive Datum where
  | NULL
  | TEXT (t : text)
  | BOOL (b : Bool)
  deriving DecidableEq, Repr

/-- A run of a SQL-callable function: its events and how it ends, with a value
or with an error of level ERROR. The result `none` stands for a flag parse whose
bound on the number of turns was used up. -/
structure Run where
  events : List Event
  result : Option (Except PgError Datum)
  deriving DecidableEq

/-- The state and the surroundings of the module: the locale, the current
content of `_constants`, the variable `stringprep_version_bad`, the database
backend, the library and its return codes, and the value that the local
variable `ulabel_needs_free` of `libidn2_register` holds when nothing was
assigned to it (the variable has no initialiser). -/
structure Env where
  L : CtypeLocale
  table : List idn_constants_struct
  stringprep_version_bad : Bool
  B : Backend
  lib : IdnLibrary
  K : ReturnCodes
  uninitialised_ulabel_needs_free : Bool

/-- The function `parse_text_arg_flags(arg, scope)`. -/
def parse_text_arg_flags (E : Env) (arg : text) (scope : constant_scope) :
    Option (Except PgError Int) :=
  parse_constant_multi E.L E.table scope (text_to_cstring arg)

/-- The function `libidn_stringprep`. -/
def libidn_stringprep (E : Env) (args : List (Option varlena)) : Run :=
  if E.stringprep_version_bad then { events := [], result := some (.error .stringprep_version) }
  else if args.length = 3 ∨ args.length = 2 then
    let parsed : Option (Except PgError Int) :=
      if args.length = 3 then
        match args.getD 2 none with
        | none => some (.ok 0)
        | some arg3 =>
          parse_constant_multi E.L E.table .SCOPE_STRINGPREP (text_to_cstring arg3.toText)
      else some (.ok 0)
    match parsed with
    | none => { events := [], result := none }
    | some (.error e) => { events := [], result := some (.error e) }
    | some (.ok profile_flags) =>
      match args.getD 0 none, args.getD 1 none with
      | some arg0, some arg1 =>
        let profile_name := text_to_cstring arg1.toText
        match text_to_utf8 E.B arg0.toText true with
        | .error e => { events := [], result := some (.error e) }
        | .ok u =>
          let utf8_src := u.utf8_src.deref arg0.toText
          let r := E.lib.stringprep_profile utf8_src profile_name profile_flags
          let called := [Event.call (.stringprep_profile utf8_src profile_name profile_flags r.1)]
          if r.1 ≠ E.K.STRINGPREP_OK then
            { events := called ++
                [.WARNING "Error performing stringprep profile conversion: %s."],
              result := some (.ok .NULL) }
          else
            match utf8_to_text E.B (r.2 ++ [0]) (strlen (r.2 ++ [0])) with
            | .error e => { events := called, result := some (.error e) }
            | .ok ret => { events := called, result := some (.ok (.TEXT ret)) }
      | _, _ => { events := [], result := some (.ok .NULL) }
  else { events := [], result := some (.error (.unexpected_nargs args.length)) }

/-- The function `idn_punycode_encode`. The buffer `dest` of `destlen + 1` bytes
comes from `palloc`, which raises an error above `MaxAllocSize`. -/
def idn_punycode_encode (E : Env) (args : List (Option varlena)) : Run :=
  if E.stringprep_version_bad then { events := [], result := some (.error .stringprep_version) }
  else if args.length ≠ 1 then
    { events := [], result := some (.error (.unexpected_nargs args.length)) }
  else
    match args.getD 0 none with
    | none => { events := [], result := some (.ok .NULL) }
    | some arg0 =>
      match text_to_utf8 E.B arg0.toText false with
      | .error e => { events := [], result := some (.error e) }
      | .ok u =>
        let utf8_src := u.utf8_src.deref arg0.toText
        let pu := E.lib.stringprep_utf8_to_ucs4 utf8_src u.utf8_srclen
        let ev1 := [Event.call (.stringprep_utf8_to_ucs4 utf8_src u.utf8_srclen pu)]
        match pu with
        | none =>
          { events := ev1 ++ [.WARNING "Error converting to from UTF-8 to UCS4."],
            result := some (.ok .NULL) }
        | some ucs4 =>
          let destlen := u.utf8_srclen * 3
          if MaxAllocSize < destlen + 1 then
            { events := ev1, result := some (.error (.invalid_alloc_request (destlen + 1))) }
          else
            let r := E.lib.punycode_encode ucs4 destlen
            let ev2 := ev1 ++ [Event.call (.punycode_encode ucs4 destlen r.1)]
            if r.1 ≠ E.K.PUNYCODE_SUCCESS then
              { events := ev2 ++ [.WARNING "Error encountered converting to Punycode: %s"],
                result := some (.ok .NULL) }
            else
              match utf8_to_text E.B (r.2 ++ [0]) r.2.length with
              | .error e => { events := ev2, result := some (.error e) }
              | .ok ret => { events := ev2, result := some (.ok (.TEXT ret)) }

/-- The function `idn_punycode_decode`. It reads its argument with `VARDATA` and
`VARSIZE`, the macros for a 4-byte header; the subtraction of `VARHDRSZ` is one
of 32-bit unsigned integers. The array `ucs4_dest` of `srclen` elements of four
bytes comes from `palloc`, which raises an error above `MaxAllocSize` (the
product is one of `size_t`, 64 bits wide). -/
def idn_punycode_decode (E : Env) (args : List (Option varlena)) : Run :=
  if E.stringprep_version_bad then { events := [], result := some (.error .stringprep_version) }
  else if args.length ≠ 1 then
    { events := [], result := some (.error (.unexpected_nargs args.length)) }
  else
    match args.getD 0 none with
    | none => { events := [], result := some (.ok .NULL) }
    | some arg0 =>
      let src := VARDATA arg0.image
      let srclen := (VARSIZE arg0.image + 2 ^ 32 - VARHDRSZ) % 2 ^ 32
      if ascii_check src srclen = false then
        { events := [.WARNING "Non-ASCII data sent to idn_punycode_decode."],
          result := some (.ok .NULL) }
      else if MaxAllocSize < 4 * srclen then
        { events := [], result := some (.error (.invalid_alloc_request (4 * srclen))) }
      else
        let r := E.lib.punycode_decode srclen src srclen
        let ev1 := [Event.call (.punycode_decode srclen src srclen r.1)]
        if r.1 ≠ E.K.PUNYCODE_SUCCESS then
          { events := ev1 ++ [.WARNING "Error encountered converting from punycode: %s"],
            result := some (.ok .NULL) }
        else
          let utf8_dest := E.lib.stringprep_ucs4_to_utf8 r.2
          let ev2 := ev1 ++ [Event.call (.stringprep_ucs4_to_utf8 r.2 utf8_dest)]
          match utf8_dest with
          | none =>
            { events := ev2 ++ [.WARNING "Unknown error converting from UCS4 to UTF-8."],
              result := some (.ok .NULL) }
          | some out =>
            match utf8_to_text E.B (out ++ [0]) out.length with
            | .error e => { events := ev2, result := some (.error e) }
            | .ok ret => { events := ev2, result := some (.ok (.TEXT ret)) }

/-- The type `utf8_fn`: given the bytes at `src`, the length and the flags, the
events of the call and the returned pointer (`none` for NULL). -/
abbrev utf8_fn := List Nat → Nat → Int → List Event × Option (List Nat)

/-- The function `idn_func_wrapper(func, arg0, arg1, uses_len)`: its events and
either an error or the returned `text *` (`none` for NULL). -/
def idn_func_wrapper (E : Env) (func : utf8_fn) (arg0 : text) (arg1 : Int) (_uses_len : Bool) :
    List Event × Except PgError (Option text) :=
  if E.stringprep_version_bad then ([], .error .stringprep_version)
  else
    match text_to_utf8 E.B arg0 true with
    | .error e => ([], .error e)
    | .ok u =>
      let r := func (u.utf8_src.deref arg0) u.utf8_srclen arg1
      match r.2 with
      | none => (r.1, .ok none)
      | some res =>
        match utf8_to_text E.B (res ++ [0]) (strlen (res ++ [0])) with
        | .error e => (r.1, .error e)
        | .ok ret => (r.1, .ok (some ret))

/-- The function `stringprep_utf8_nfkc_normalize_wrapper`. -/
def stringprep_utf8_nfkc_normalize_wrapper (E : Env) : utf8_fn :=
  fun src srclen _flags =>
    let ret := E.lib.stringprep_utf8_nfkc_normalize src srclen
    ([Event.call (.stringprep_utf8_nfkc_normalize src srclen ret)], ret)

/-- The function `idn_utf8_nfkc_normalize`. -/
def idn_utf8_nfkc_normalize (E : Env) (args : List (Option varlena)) : Run :=
  if args.length ≠ 1 then
    { events := [], result := some (.error (.unexpected_nargs args.length)) }
  else
    match args.getD 0 none with
    | none => { events := [], result := some (.ok .NULL) }
    | some arg0 =>
      match idn_func_wrapper E (stringprep_utf8_nfkc_normalize_wrapper E) arg0.toText 0 true with
      | (ev, .error e) => { events := ev, result := some (.error e) }
      | (ev, .ok none) =>
        { events := ev ++ [.WARNING "Unknown error applying NFKC normalization."],
          result := some (.ok .NULL) }
      | (ev, .ok (some result)) => { events := ev, result := some (.ok (.TEXT result)) }

/-- The function `idna_to_unicode_8z8z_wrapper`. -/
def idna_to_unicode_8z8z_wrapper (E : Env) : utf8_fn :=
  fun src _srclen flags =>
    let r := E.lib.idna_to_unicode_8z8z src flags
    let called := [Event.call (.idna_to_unicode_8z8z src flags r.1)]
    if r.1 = E.K.IDNA_SUCCESS then (called, some r.2)
    else
      (called ++ [.WARNING "Error encountered converting from IDNA2003 to Unicode: %s"], none)

/-- The function `idna_to_ascii_8z_wrapper`. -/
def idna_to_ascii_8z_wrapper (E : Env) : utf8_fn :=
  fun src _srclen flags =>
    let r := E.lib.idna_to_ascii_8z src flags
    let called := [Event.call (.idna_to_ascii_8z src flags r.1)]
    if r.1 = E.K.IDNA_SUCCESS then (called, some r.2)
    else
      (called ++ [.WARNING "Error encountered converting from IDNA2003 to ASCII: %s"], none)

/-- The `switch (PG_NARGS())` that `idn_idna_decode`, `idn_idna_encode` and
`libidn2_lookup` share: with two arguments a non-NULL second one is parsed as
flags of `scope`, and control falls through into the case of one argument. The
result is a finished run, or the flags and the first argument. -/
def flags_switch (E : Env) (scope : constant_scope) (args : List (Option varlena)) :
    Run ⊕ (Int × varlena) :=
  if args.length = 2 ∨ args.length = 1 then
    let parsed : Option (Except PgError Int) :=
      if args.length = 2 then
        match args.getD 1 none with
        | none => some (.ok 0)
        | some arg1 => parse_text_arg_flags E arg1.toText scope
      else some (.ok 0)
    match parsed with
    | none => .inl { events := [], result := none }
    | some (.error e) => .inl { events := [], result := some (.error e) }
    | some (.ok flags) =>
      match args.getD 0 none with
      | none => .inl { events := [], result := some (.ok .NULL) }
      | some arg0 => .inr (flags, arg0)
  else .inl { events := [], result := some (.error (.unexpected_nargs args.length)) }

/-- The part that `idn_idna_decode` and `idn_idna_encode` share after the
`switch`: the call of `idn_func_wrapper` and the test of its result. -/
def idna_finish (E : Env) (func : utf8_fn) (arg0 : varlena) (flags : Int) : Run :=
  match idn_func_wrapper E func arg0.toText flags false with
  | (ev, .error e) => { events := ev, result := some (.error e) }
  | (ev, .ok none) => { events := ev, result := some (.ok .NULL) }
  | (ev, .ok (some result)) => { events := ev, result := some (.ok (.TEXT result)) }

/-- The function `idn_idna_decode`. -/
def idn_idna_decode (E : Env) (args : List (Option varlena)) : Run :=
  match flags_switch E .SCOPE_IDNA args with
  | .inl run => run
  | .inr (flags, arg0) => idna_finish E (idna_to_unicode_8z8z_wrapper E) arg0 flags

/-- The function `idn_idna_encode`. -/
def idn_idna_encode (E : Env) (args : List (Option varlena)) : Run :=
  match flags_switch E .SCOPE_IDNA args with
  | .inl run => run
  | .inr (flags, arg0) => idna_finish E (idna_to_ascii_8z_wrapper E) arg0 flags

/-- The function `idn_pr29_check`. -/
def idn_pr29_check (E : Env) (args : List (Option varlena)) : Run :=
  if args.length ≠ 1 then
    { events := [], result := some (.error (.unexpected_nargs args.length)) }
  else
    match args.getD 0 none with
    | none => { events := [], result := some (.ok .NULL) }
    | some arg0 =>
      match text_to_utf8 E.B arg0.toText true with
      | .error e => { events := [], result := some (.error e) }
      | .ok u =>
        let utf8_src := u.utf8_src.deref arg0.toText
        let ret := E.lib.pr29_8z utf8_src
        let called := [Event.call (.pr29_8z utf8_src ret)]
        { events :=
            if ret ≠ E.K.PR29_SUCCESS ∧ ret ≠ E.K.PR29_PROBLEM then
              called ++ [.WARNING "Error encountered performing PR29 check: %s"]
            else called,
          result := some (.ok (.BOOL (decide (ret = E.K.PR29_SUCCESS)))) }

/-- The function `libidn2_lookup`. -/
def libidn2_lookup (E : Env) (args : List (Option varlena)) : Run :=
  match flags_switch E .SCOPE_IDNA2 args with
  | .inl run => run
  | .inr (flags, arg0) =>
    match text_to_utf8 E.B arg0.toText true with
    | .error e => { events := [], result := some (.error e) }
    | .ok u =>
      let utf8_src := u.utf8_src.deref arg0.toText
      let r := E.lib.idn2_lookup_u8 utf8_src flags
      let called := [Event.call (.idn2_lookup_u8 utf8_src flags r.1)]
      if r.1 ≠ E.K.IDN2_OK then
        { events := called ++ [.WARNING "Error encountered performing idn2 lookup: %s"],
          result := some (.ok .NULL) }
      else
        match utf8_to_text E.B (r.2 ++ [0]) (strlen (r.2 ++ [0])) with
        | .error e => { events := called, result := some (.error e) }
        | .ok result => { events := called, result := some (.ok (.TEXT result)) }

/-- The part of `libidn2_register` after the two labels were read: the test that
not both are NULL, the flags, the library call, the release of the labels and
the result. `ulabel_needs_free` is the value of the variable at this point; when
it is true for a NULL U-label, the source calls `pfree(NULL)`. -/
def libidn2_register_rest (E : Env) (args : List (Option varlena))
    (ulabel_utf8_src alabel_ascii_src : Option (List Nat)) (ulabel_needs_free : Bool) : Run :=
  if ulabel_utf8_src = none ∧ alabel_ascii_src = none then
    { events := [], result := some (.error .both_labels_null) }
  else
    let parsed : Option (Except PgError Int) :=
      match args.getD 2 none with
      | none => some (.ok 0)
      | some arg2 => parse_text_arg_flags E arg2.toText .SCOPE_IDNA2
    match parsed with
    | none => { events := [], result := none }
    | some (.error e) => { events := [], result := some (.error e) }
    | some (.ok flags) =>
      let r := E.lib.idn2_register_u8 ulabel_utf8_src alabel_ascii_src flags
      let called := [Event.call (.idn2_register_u8 ulabel_utf8_src alabel_ascii_src flags r.1)]
      if ulabel_needs_free = true ∧ ulabel_utf8_src = none then
        { events := called, result := some (.error .pfree_null) }
      else if r.1 ≠ E.K.IDN2_OK then
        { events := called ++ [.WARNING "Error encountered performing idn2 register: %s"],
          result := some (.ok .NULL) }
      else
        match utf8_to_text E.B (r.2 ++ [0]) (strlen (r.2 ++ [0])) with
        | .error e => { events := called, result := some (.error e) }
        | .ok result => { events := called, result := some (.ok (.TEXT result)) }

/-- The function `libidn2_register`. With a NULL first argument nothing is
assigned to `ulabel_needs_free`, which has no initialiser. -/
def libidn2_register (E : Env) (args : List (Option varlena)) : Run :=
  if args.length ≠ 3 then
    { events := [], result := some (.error (.unexpected_nargs args.length)) }
  else
    let ulabel : Except PgError (Option (List Nat) × Bool) :=
      match args.getD 0 none with
      | none => .ok (none, E.uninitialised_ulabel_needs_free)
      | some arg0 =>
        match text_to_utf8 E.B arg0.toText true with
        | .error e => .error e
        | .ok u => .ok (some (u.utf8_src.deref arg0.toText), u.needs_free)
    match ulabel with
    | .error e => { events := [], result := some (.error e) }
    | .ok (ulabel_utf8_src, ulabel_needs_free) =>
      let alabel : Option (List Nat) :=
        match args.getD 1 none with
        | none => none
        | some arg1 => some (arg1.toText.data ++ [0])
      let alabel_ascii_srclen : Nat :=
        match args.getD 1 none with
        | none => 0
        | some arg1 => arg1.toText.data.length
      match alabel with
      | some copy =>
        if ascii_check copy alabel_ascii_srclen = false then
          { events := [.WARNING "Non-ASCII data sent to idn_punycode_decode."],
            result := some (.ok .NULL) }
        else libidn2_register_rest E args ulabel_utf8_src alabel ulabel_needs_free
      | none => libidn2_register_rest E args ulabel_utf8_src alabel ulabel_needs_free

/-- The SQL-callable functions that convert or check a string. -/
inductive EntryPoint where
  | libidn_stringprep
  | idn_punycode_encode
  | idn_punycode_decode
  | idn_utf8_nfkc_normalize
  | idn_idna_encode
  | idn_idna_decode
  | idn_pr29_check
  | libidn2_lookup
  | libidn2_register
  deriving DecidableEq, Repr

/-- The run of an entry point on a list of arguments (`none` is SQL NULL). -/
def EntryPoint.run (E : Env) (args : List (Option varlena)) : EntryPoint → Run
  | .libidn_stringprep => Idn.libidn_stringprep E args
  | .idn_punycode_encode => Idn.idn_punycode_encode E args
  | .idn_punycode_decode => Idn.idn_punycode_decode E args
  | .idn_utf8_nfkc_normalize => Idn.idn_utf8_nfkc_normalize E args
  | .idn_idna_encode => Idn.idn_idna_encode E args
  | .idn_idna_decode => Idn.idn_idna_decode E args
  | .idn_pr29_check => Idn.idn_pr29_check E args
  | .libidn2_lookup => Idn.libidn2_lookup E args
  | .libidn2_register => Idn.libidn2_register E args

/-! ## Vocabulary of the specification -/

/-- ASCII lower-casing of one byte. -/
def asciiLower (c : Nat) : Nat := if 65 ≤ c ∧ c ≤ 90 then c + 32 else c

/-- Two byte strings are equal up to the case of ASCII letters. -/
def EqIgnoreAsciiCase (a b : List Nat) : Prop := a.map asciiLower = b.map asciiLower

instance (a b : List Nat) : Decidable (EqIgnoreAsciiCase a b) := by
  unfold EqIgnoreAsciiCase; infer_instance

/-- A name resolves in a scope when the lookup gives a value that
`parse_constant_multi` accepts, that is, a non-negative one. With non-negative
header values this is the same as an answer other than NotFound. -/
def Resolves (L : CtypeLocale) (table : List idn_constants_struct) (scope : constant_scope)
    (name : List Nat) : Prop :=
  0 ≤ _parse_constant L table scope name

instance (L : CtypeLocale) (table : List idn_constants_struct) (scope : constant_scope)
    (name : List Nat) : Decidable (Resolves L table scope name) := by
  unfold Resolves; infer_instance

/-- The bitwise OR of the values the table registers for a list of names,
starting from the mask `ret`. -/
def orOfValues (L : CtypeLocale) (table : List idn_constants_struct) (scope : constant_scope)
    (ret : Int) (names : List (List Nat)) : Int :=
  names.foldl (fun acc name => Int.lor acc (_parse_constant L table scope name)) ret

/-- The library call reports a failure: a return code other than the success
code of its family (for `pr29_8z`, other than `PR29_SUCCESS` and
`PR29_PROBLEM`, the two answers of the check), or a NULL pointer. -/
def LibCall.reportsFailure (K : ReturnCodes) : LibCall → Bool
  | .stringprep_profile _ _ _ rc => decide (rc ≠ K.STRINGPREP_OK)
  | .stringprep_utf8_to_ucs4 _ _ ret => ret.isNone
  | .punycode_encode _ _ rc => decide (rc ≠ K.PUNYCODE_SUCCESS)
  | .punycode_decode _ _ _ rc => decide (rc ≠ K.PUNYCODE_SUCCESS)
  | .stringprep_ucs4_to_utf8 _ ret => ret.isNone
  | .stringprep_utf8_nfkc_normalize _ _ ret => ret.isNone
  | .idna_to_unicode_8z8z _ _ rc => decide (rc ≠ K.IDNA_SUCCESS)
  | .idna_to_ascii_8z _ _ rc => decide (rc ≠ K.IDNA_SUCCESS)
  | .pr29_8z _ rc => decide (rc ≠ K.PR29_SUCCESS ∧ rc ≠ K.PR29_PROBLEM)
  | .idn2_lookup_u8 _ _ rc => decide (rc ≠ K.IDN2_OK)
  | .idn2_register_u8 _ _ _ rc => decide (rc ≠ K.IDN2_OK)

/-- Some library call of the run reported a failure. -/
def Run.libraryFailed (K : ReturnCodes) (r : Run) : Prop :=
  ∃ c, Event.call c ∈ r.events ∧ c.reportsFailure K = true

/-- The run logged a report of level WARNING. -/
def Run.warned (r : Run) : Prop := ∃ msg, Event.WARNING msg ∈ r.events

/-- The flags argument of a library call, for the calls that take one. -/
def LibCall.flags : LibCall → Option Int
  | .stringprep_profile _ _ flags _ => some flags
  | .idna_to_unicode_8z8z _ flags _ => some flags
  | .idna_to_ascii_8z _ flags _ => some flags
  | .idn2_lookup_u8 _ flags _ => some flags
  | .idn2_register_u8 _ _ flags _ => some flags
  | _ => none

/-- An example of a library: every function with a return code returns `rc` and
its input as output, every function that returns a pointer returns its input. -/
def echoLibrary (rc : Int) : IdnLibrary where
  stringprep_profile := fun src _ _ => (rc, cstring src)
  stringprep_utf8_to_ucs4 := fun src len => some (src.take len)
  punycode_encode := fun input _ => (rc, input)
  punycode_decode := fun srclen src _ => (rc, src.take srclen)
  stringprep_ucs4_to_utf8 := fun str => some str
  stringprep_utf8_nfkc_normalize := fun src len => some (src.take len)
  idna_to_unicode_8z8z := fun src _ => (rc, cstring src)
  idna_to_ascii_8z := fun src _ => (rc, cstring src)
  pr29_8z := fun _ => rc
  idn2_lookup_u8 := fun src _ => (rc, cstring src)
  idn2_register_u8 := fun ulabel alabel _ => (rc, cstring ((ulabel.orElse (fun _ => alabel)).getD []))

/-- An example of the module after `_PG_init`, in the "C" locale with a UTF-8
database, the header values of libidn and the library `echoLibrary rc`. -/
def echoEnv (rc : Int) : Env where
  L := cLocale
  table := readyTable cLocale libidn
  stringprep_version_bad := false
  B := utf8Backend
  lib := echoLibrary rc
  K := libidnCodes
  uninitialised_ulabel_needs_free := false

/-- The segment `seg` is the leftmost segment of `str` (split at the bar) that
does not resolve in the scope. -/
def FirstUnresolved (L : CtypeLocale) (table : List idn_constants_struct)
    (scope : constant_scope) (str seg : List Nat) : Prop :=
  ∃ pre post, str.splitOn 124 = pre ++ seg :: post ∧
    (∀ n ∈ pre, Resolves L table scope n) ∧ ¬ Resolves L table scope seg

/-! ## Theorems -/

theorem asciiLower_eq_cases {x y : Nat} (h : asciiLower x = asciiLower y) :
    x = y ∨ (65 ≤ x ∧ x ≤ 90 ∧ y = x + 32) ∨ (65 ≤ y ∧ y ≤ 90 ∧ x = y + 32) := by
  unfold asciiLower at h
  split_ifs at h <;> omega

theorem fold_of_upper (L : CtypeLocale) {x : Nat} (h1 : 65 ≤ x) (h2 : x ≤ 90) :
    fold L x = x + 32 := by
  simp [fold, h1, h2]

theorem fold_of_lower (L : CtypeLocale) {x : Nat} (h1 : 97 ≤ x) (h2 : x ≤ 122) :
    fold L x = x := by
  unfold fold
  rw [if_neg (by omega), if_neg (by omega)]

theorem step_of_upper (L : CtypeLocale) {x : Nat} (h1 : 65 ≤ x) (h2 : x ≤ 90) (c : Nat) :
    pg_strcasecmp_step L x c =
      if x + 32 ≠ fold L c then some (((x + 32 : Nat) : Int) - (fold L c : Int)) else none := by
  have e1 := fold_of_upper L h1 h2
  unfold pg_strcasecmp_step
  by_cases hc : x = c
  · subst hc
    have hx : ¬ x = 0 := by omega
    simp [e1, hx]
  · have hx : ¬ x + 32 = 0 := by omega
    simp only [ne_eq, hc, not_false_eq_true, if_true, e1, hx, if_false]

theorem step_of_lower (L : CtypeLocale) {x : Nat} (h1 : 97 ≤ x) (h2 : x ≤ 122) (c : Nat) :
    pg_strcasecmp_step L x c =
      if x ≠ fold L c then some ((x : Int) - (fold L c : Int)) else none := by
  have e1 := fold_of_lower L h1 h2
  unfold pg_strcasecmp_step
  by_cases hc : x = c
  · subst hc
    have hx : ¬ x = 0 := by omega
    simp [e1, hx]
  · have hx : ¬ x = 0 := by omega
    simp only [ne_eq, hc, not_false_eq_true, if_true, e1, hx, if_false]

theorem step_congr (L : CtypeLocale) {x y : Nat} (h : asciiLower x = asciiLower y) (c : Nat) :
    pg_strcasecmp_step L x c = pg_strcasecmp_step L y c := by
  rcases asciiLower_eq_cases h with rfl | ⟨h1, h2, rfl⟩ | ⟨h1, h2, rfl⟩
  · rfl
  · rw [step_of_upper L h1 h2, step_of_lower L (by omega) (by omega)]
  · rw [step_of_upper L h1 h2, step_of_lower L (by omega) (by omega)]

theorem pg_strcasecmp_congr (L : CtypeLocale) :
    ∀ (a b : List Nat), EqIgnoreAsciiCase a b → ∀ m, pg_strcasecmp L a m = pg_strcasecmp L b m
  | [], [], _, _ => rfl
  | [], _ :: _, h, _ => by simp [EqIgnoreAsciiCase] at h
  | _ :: _, [], h, _ => by simp [EqIgnoreAsciiCase] at h
  | x :: a, y :: b, h, m => by
    simp only [EqIgnoreAsciiCase, List.map_cons, List.cons.injEq] at h
    have ih := pg_strcasecmp_congr L a b h.2 m.tail
    simp only [pg_strcasecmp, step_congr L h.1, ih]

theorem bsearch_loop_congr {α : Type} (k k' : α) (base : List α) (compar : α → α → Int)
    (h : ∀ p ∈ base, compar k p = compar k' p) :
    ∀ fuel l u, bsearch_loop k base compar fuel l u = bsearch_loop k' base compar fuel l u := by
  intro fuel
  induction fuel with
  | zero => intro l u; rfl
  | succ n ih =>
    intro l u
    unfold bsearch_loop
    by_cases hlu : l < u
    · simp only [hlu, if_true]
      cases hg : base[(l + u) / 2]? with
      | none => rfl
      | some p =>
        have hp : p ∈ base := List.getElem?_mem hg
        simp only [h p hp, ih]
    · simp only [hlu, if_false]

theorem bsearch_congr {α : Type} (k k' : α) (base : List α) (compar : α → α → Int)
    (h : ∀ p ∈ base, compar k p = compar k' p) :
    bsearch k base compar = bsearch k' base compar :=
  bsearch_loop_congr k k' base compar h _ _ _

theorem bsearch_loop_some {α : Type} (k : α) (base : List α) (compar : α → α → Int) (p : α) :
    ∀ fuel l u, bsearch_loop k base compar fuel l u = some p → p ∈ base ∧ compar k p = 0 := by
  intro fuel
  induction fuel with
  | zero => intro l u h; simp [bsearch_loop] at h
  | succ n ih =>
    intro l u h
    unfold bsearch_loop at h
    by_cases hlu : l < u
    · simp only [hlu, if_true] at h
      cases hg : base[(l + u) / 2]? with
      | none => simp [hg] at h
      | some q =>
        simp only [hg] at h
        by_cases h1 : compar k q < 0
        · simp only [h1, if_true] at h
          exact ih _ _ h
        · by_cases h2 : compar k q > 0
          · simp only [h1, h2, if_true, if_false] at h
            exact ih _ _ h
          · simp only [h1, h2, if_false, Option.some.injEq] at h
            subst h
            exact ⟨List.getElem?_mem hg, by omega⟩
    · simp [hlu] at h

theorem bsearch_some {α : Type} (k : α) (base : List α) (compar : α → α → Int) (p : α)
    (h : bsearch k base compar = some p) : p ∈ base ∧ compar k p = 0 :=
  bsearch_loop_some k base compar p _ _ _ h


set_option maxRecDepth 100000 in
set_option maxHeartbeats 4000000 in
theorem readyTable_eq (L : CtypeLocale) (H : LibidnHeaders) :
    readyTable L H = sortedConstants H := by
  simp [readyTable, _PG_init, qsort, _constants, insertSorted, constants_compare, pg_strcasecmp,
    pg_strcasecmp_step, fold, bytes, constant_scope.toNat, sortedConstants]

theorem fold_of_ascii (L : CtypeLocale) {y : Nat} (h : y < 128) : fold L y = asciiLower y := by
  unfold fold asciiLower
  by_cases h1 : 65 ≤ y ∧ y ≤ 90
  · simp [h1]
  · rw [if_neg h1, if_neg h1, if_neg (by omega)]

theorem fold_high (L : CtypeLocale) (hL : L.KeepsHighBit) {x : Nat} (h : 128 ≤ x) :
    128 ≤ fold L x := by
  unfold fold
  rw [if_neg (by omega)]
  by_cases hu : L.isupper x = true
  · rw [if_pos ⟨h, hu⟩]; exact hL x h hu
  · rw [if_neg (by simp [hu])]; exact h

theorem asciiLower_lt {y : Nat} (h : y < 128) : asciiLower y < 128 := by
  unfold asciiLower; split_ifs <;> omega

theorem asciiLower_pos {y : Nat} (h : 0 < y) : 0 < asciiLower y := by
  unfold asciiLower; split_ifs <;> omega

/-- With a locale that keeps the high bit, a byte folds to the fold of a 7-bit
byte only when the two are equal up to ASCII case. -/
theorem fold_eq_ascii (L : CtypeLocale) (hL : L.KeepsHighBit) {x y : Nat} (hy : y < 128)
    (h : fold L x = fold L y) : asciiLower x = asciiLower y := by
  by_cases hx : x < 128
  · rw [fold_of_ascii L hx, fold_of_ascii L hy] at h; exact h
  · have h1 := fold_high L hL (Nat.le_of_not_lt hx)
    rw [h, fold_of_ascii L hy] at h1
    have := asciiLower_lt hy
    omega

theorem pg_strcasecmp_eq_zero (L : CtypeLocale) (hL : L.KeepsHighBit) :
    ∀ (a b : List Nat), 0 ∉ a → (∀ c ∈ b, 0 < c ∧ c < 128) → pg_strcasecmp L a b = 0 →
      EqIgnoreAsciiCase a b
  | [], [], _, _, _ => rfl
  | [], y :: b, _, hb, h => by
    exfalso
    have hy := hb y (List.mem_cons_self _ _)
    have hf : fold L 0 = 0 := by simp [fold]
    have hfy : fold L y = asciiLower y := fold_of_ascii L hy.2
    have hp := asciiLower_pos hy.1
    have hne : ¬ (0 = y) := by omega
    simp only [pg_strcasecmp, pg_strcasecmp_step, List.headD_cons, ne_eq, hne, not_false_eq_true,
      if_true, hf, hfy] at h
    have hne2 : ¬ (0 = asciiLower y) := by omega
    simp only [hne2, not_false_eq_true, if_true, Option.getD_some] at h
    omega
  | x :: a, [], ha, _, h => by
    exfalso
    have hx : x ≠ 0 := fun e => ha (by simp [e])
    have hf : fold L 0 = 0 := by simp [fold]
    have hfx : fold L x ≠ 0 := by
      by_cases hx7 : x < 128
      · rw [fold_of_ascii L hx7]; have := asciiLower_pos (Nat.pos_of_ne_zero hx); omega
      · have := fold_high L hL (Nat.le_of_not_lt hx7); omega
    simp only [pg_strcasecmp, pg_strcasecmp_step, List.headD_nil, ne_eq, hx, not_false_eq_true,
      if_true, hf, hfx] at h
    omega
  | x :: a, y :: b, ha, hb, h => by
    have hx : x ≠ 0 := fun e => ha (by simp [e])
    have ha2 : 0 ∉ a := fun e => ha (List.mem_cons_of_mem _ e)
    have hy := hb y (List.mem_cons_self _ _)
    have hb2 : ∀ c ∈ b, 0 < c ∧ c < 128 := fun c hc => hb c (List.mem_cons_of_mem _ hc)
    simp only [pg_strcasecmp, List.headD_cons, List.tail_cons] at h
    by_cases hxy : x = y
    · subst hxy
      have hs : pg_strcasecmp_step L x x = none := by simp [pg_strcasecmp_step, hx]
      rw [hs] at h
      have ih := pg_strcasecmp_eq_zero L hL a b ha2 hb2 h
      simp only [EqIgnoreAsciiCase, List.map_cons] at ih ⊢
      rw [ih]
    · by_cases hf : fold L x = fold L y
      · have hfx : fold L x ≠ 0 := by
          rw [hf, fold_of_ascii L hy.2]; have := asciiLower_pos hy.1; omega
        have hs : pg_strcasecmp_step L x y = none := by
          simp [pg_strcasecmp_step, hxy, hf]
          rw [← hf]; exact hfx
        rw [hs] at h
        have ih := pg_strcasecmp_eq_zero L hL a b ha2 hb2 h
        have hl := fold_eq_ascii L hL hy.2 hf
        simp only [EqIgnoreAsciiCase, List.map_cons] at ih ⊢
        rw [ih, hl]
      · exfalso
        have hs : pg_strcasecmp_step L x y = some ((fold L x : Int) - (fold L y : Int)) := by
          simp [pg_strcasecmp_step, hxy, hf]
        rw [hs] at h
        simp only at h
        omega

set_option maxRecDepth 100000 in
set_option maxHeartbeats 4000000 in
/-- In the sorted table the lookup of an entry's own scope and name finds the
entry's value. -/
theorem lookup_own_name (L : CtypeLocale) (H : LibidnHeaders) :
    ∀ e ∈ sortedConstants H, _parse_constant L (sortedConstants H) e.scope e.name = e.value := by
  intro e he
  simp only [sortedConstants, List.mem_cons, List.mem_singleton, List.not_mem_nil, or_false] at he
  rcases he with rfl | rfl | rfl | rfl | rfl | rfl | rfl | rfl | rfl | rfl <;>
  simp [_parse_constant, bsearch, bsearch_loop, sortedConstants, constants_compare, pg_strcasecmp,
    pg_strcasecmp_step, fold, bytes, constant_scope.toNat]

theorem mem_constants_iff (H : LibidnHeaders) (e : idn_constants_struct) :
    e ∈ _constants H ↔ e ∈ sortedConstants H := by
  simp only [_constants, sortedConstants, List.mem_cons, List.mem_singleton, List.not_mem_nil,
    or_false]
  tauto

/-- Every name of the table is made of non-zero 7-bit bytes other than the bar. -/
theorem table_names_ascii (H : LibidnHeaders) :
    ∀ e ∈ sortedConstants H, ∀ c ∈ e.name, (0 < c ∧ c < 128) ∧ asciiLower c ≠ 124 := by
  intro e he
  simp only [sortedConstants, List.mem_cons, List.mem_singleton, List.not_mem_nil, or_false] at he
  rcases he with rfl | rfl | rfl | rfl | rfl | rfl | rfl | rfl | rfl | rfl <;>
  simp [bytes, asciiLower]

theorem scope_toNat_inj {a b : constant_scope} (h1 : ¬ a.toNat < b.toNat)
    (h2 : ¬ a.toNat > b.toNat) : a = b := by
  cases a <;> cases b <;> simp [constant_scope.toNat] at h1 h2 ⊢

theorem constants_compare_eq_zero (L : CtypeLocale) (a b : idn_constants_struct)
    (h : constants_compare L a b = 0) : a.scope = b.scope ∧ pg_strcasecmp L a.name b.name = 0 := by
  unfold constants_compare at h
  by_cases h1 : a.scope.toNat < b.scope.toNat
  · simp [h1] at h
  · by_cases h2 : a.scope.toNat > b.scope.toNat
    · simp [h1, h2] at h
    · simp only [h1, h2, if_false] at h
      exact ⟨scope_toNat_inj h1 h2, h⟩

theorem constants_compare_congr (L : CtypeLocale) (scope : constant_scope) (a b : List Nat)
    (v w : Int) (d1 d2 : String) (h : EqIgnoreAsciiCase a b) (p : idn_constants_struct) :
    constants_compare L { scope := scope, name := a, value := v, description := d1 } p =
      constants_compare L { scope := scope, name := b, value := w, description := d2 } p := by
  simp only [constants_compare, pg_strcasecmp_congr L a b h p.name]

/-- The lookup depends on the name only up to ASCII case, in any table. -/
theorem parse_constant_congr (L : CtypeLocale) (table : List idn_constants_struct)
    (scope : constant_scope) (a b : List Nat) (h : EqIgnoreAsciiCase a b) :
    _parse_constant L table scope a = _parse_constant L table scope b := by
  unfold _parse_constant
  simp only
  rw [bsearch_congr _ _ table (constants_compare L)
    (fun p _ => constants_compare_congr L scope a b 0 0 "" "" h p)]

theorem cLocale_keepsHighBit : cLocale.KeepsHighBit := by
  intro c _ h
  simp [cLocale] at h

theorem fold_ascii_locale (L : CtypeLocale) {c : Nat} (h : c < 128) :
    fold L c = fold cLocale c := by
  rw [fold_of_ascii L h, fold_of_ascii cLocale h]

theorem pg_strcasecmp_ascii_locale (L : CtypeLocale) :
    ∀ (a b : List Nat), (∀ c ∈ a, c < 128) → (∀ c ∈ b, c < 128) →
      pg_strcasecmp L a b = pg_strcasecmp cLocale a b
  | [], b, _, hb => by
    have hh : b.headD 0 < 128 := by
      cases b with
      | nil => simp
      | cons y _ => simpa using hb y (List.mem_cons_self _ _)
    simp only [pg_strcasecmp, pg_strcasecmp_step, fold_ascii_locale L hh,
      fold_ascii_locale L (show 0 < 128 by omega)]
  | x :: a, b, ha, hb => by
    have hx : x < 128 := ha x (List.mem_cons_self _ _)
    have hh : b.headD 0 < 128 := by
      cases b with
      | nil => simp
      | cons y _ => simpa using hb y (List.mem_cons_self _ _)
    have ht : ∀ c ∈ b.tail, c < 128 := fun c hc => hb c (List.mem_of_mem_tail hc)
    have ih := pg_strcasecmp_ascii_locale L a b.tail
      (fun c hc => ha c (List.mem_cons_of_mem _ hc)) ht
    simp only [pg_strcasecmp, pg_strcasecmp_step, fold_ascii_locale L hh,
      fold_ascii_locale L hx, ih]

/-- A name of 7-bit bytes compares equal to a table name only when the two are
equal up to ASCII case, in every locale. -/
theorem pg_strcasecmp_eq_zero_ascii (L : CtypeLocale) (a b : List Nat) (ha0 : 0 ∉ a)
    (ha : ∀ c ∈ a, c < 128) (hb : ∀ c ∈ b, 0 < c ∧ c < 128) (h : pg_strcasecmp L a b = 0) :
    EqIgnoreAsciiCase a b := by
  rw [pg_strcasecmp_ascii_locale L a b ha (fun c hc => (hb c hc).2)] at h
  exact pg_strcasecmp_eq_zero cLocale cLocale_keepsHighBit a b ha0 hb h

/-- A lookup that finds something finds an entry of the scope that
`pg_strcasecmp` calls equal to the key, in every locale. -/
theorem lookup_hit (L : CtypeLocale) (H : LibidnHeaders) (scope : constant_scope)
    (name : List Nat) (h : _parse_constant L (sortedConstants H) scope name ≠ -1) :
    ∃ e ∈ sortedConstants H, e.scope = scope ∧ pg_strcasecmp L name e.name = 0 ∧
      _parse_constant L (sortedConstants H) scope name = e.value := by
  unfold _parse_constant at h ⊢
  simp only at h ⊢
  cases hb : bsearch { scope := scope, name := name, value := 0, description := "" }
      (sortedConstants H) (constants_compare L) with
  | none => simp [hb] at h
  | some p =>
    obtain ⟨hp, hc⟩ := bsearch_some _ _ _ _ hb
    obtain ⟨hs, hz⟩ := constants_compare_eq_zero L _ _ hc
    simp only at hs hz
    exact ⟨p, hp, hs.symm, hz, rfl⟩

/-- A lookup that finds something finds an entry of the scope whose name is the
key up to ASCII case, when the key has 7-bit bytes only or the locale keeps the
high bit. -/
theorem parse_constant_found (L : CtypeLocale) (H : LibidnHeaders)
    (scope : constant_scope) (name : List Nat) (hname : 0 ∉ name)
    (hloc : L.KeepsHighBit ∨ ∀ c ∈ name, c < 128)
    (h : _parse_constant L (sortedConstants H) scope name ≠ -1) :
    ∃ e ∈ sortedConstants H, e.scope = scope ∧ EqIgnoreAsciiCase e.name name ∧
      _parse_constant L (sortedConstants H) scope name = e.value := by
  obtain ⟨p, hp, hs, hz, hv⟩ := lookup_hit L H scope name h
  have hasc : ∀ c ∈ p.name, 0 < c ∧ c < 128 := fun c hc => (table_names_ascii H p hp c hc).1
  have heq : EqIgnoreAsciiCase name p.name := by
    rcases hloc with hL | h7
    · exact pg_strcasecmp_eq_zero L hL name p.name hname hasc hz
    · exact pg_strcasecmp_eq_zero_ascii L name p.name hname h7 hasc hz
  exact ⟨p, hp, hs, heq.symm, hv⟩

set_option maxRecDepth 100000 in
/-- C1 as stated fails in a Turkish single-byte locale: the name that starts with
the byte 0xDD and goes on with `DNA_FLAG_USE_STD3_ASCII_RULES` equals no
registered name of the scope IDNA2003 up to ASCII case, and its lookup returns
the value 2 of `IDNA_FLAG_USE_STD3_ASCII_RULES`, not -1. -/
theorem parse_constant_locale_counterexample :
    0 ∉ (0xDD :: bytes "DNA_FLAG_USE_STD3_ASCII_RULES") ∧
    (∀ e ∈ _constants libidn, e.scope = .SCOPE_IDNA →
      ¬ EqIgnoreAsciiCase e.name (0xDD :: bytes "DNA_FLAG_USE_STD3_ASCII_RULES")) ∧
    _parse_constant latin5Locale (readyTable latin5Locale libidn) .SCOPE_IDNA
      (0xDD :: bytes "DNA_FLAG_USE_STD3_ASCII_RULES") = 2 := by
  decide

/-- C1, amended. After `_PG_init`, `_parse_constant(scope, name)` returns the
value of the table entry of that scope whose name equals `name` up to ASCII
case, in every locale; it returns -1 when the scope has no such entry, provided
the name has no byte with the high bit set or the locale lower-cases no such
byte into a 7-bit byte; no registered value is -1. -/
theorem parse_constant_spec (L : CtypeLocale) (H : LibidnHeaders)
    (hH : H.NonNeg) (scope : constant_scope) (name : List Nat) (hname : 0 ∉ name) :
    (∀ e ∈ _constants H, e.scope = scope → EqIgnoreAsciiCase e.name name →
        _parse_constant L (readyTable L H) scope name = e.value) ∧
    (L.KeepsHighBit ∨ (∀ c ∈ name, c < 128) →
      (∀ e ∈ _constants H, e.scope = scope → ¬ EqIgnoreAsciiCase e.name name) →
        _parse_constant L (readyTable L H) scope name = -1) ∧
    (∀ e ∈ _constants H, e.value ≠ -1) := by
  rw [readyTable_eq]
  refine ⟨?_, ?_, ?_⟩
  · intro e he hs heq
    rw [mem_constants_iff] at he
    rw [← parse_constant_congr L _ scope e.name name heq, ← hs]
    exact lookup_own_name L H e he
  · intro hloc hnone
    by_contra hne
    obtain ⟨e, he, hs, heq, _⟩ := parse_constant_found L H scope name hname hloc hne
    exact hnone e ((mem_constants_iff H e).2 he) hs heq
  · intro e he
    obtain ⟨h1, h2, h3, h4, h5, h6, h7⟩ := hH
    simp only [_constants, List.mem_cons, List.mem_singleton, List.not_mem_nil, or_false] at he
    rcases he with rfl | rfl | rfl | rfl | rfl | rfl | rfl | rfl | rfl | rfl <;>
    simp only <;> omega

theorem libidn_nonNeg : libidn.NonNeg := by
  simp [LibidnHeaders.NonNeg, libidn]

set_option maxRecDepth 100000 in
/-- C1, amended, in the Turkish single-byte locale with the header values of
libidn, for the lower-case spelling of `IDNA_FLAG_USE_STD3_ASCII_RULES`, a name
of 7-bit bytes: found in the scope `SCOPE_IDNA`, not found in `SCOPE_IDNA2`. -/
theorem parse_constant_spec_witness :
    libidn.NonNeg ∧ 0 ∉ bytes "idna_flag_use_std3_ascii_rules" ∧
    (latin5Locale.KeepsHighBit ∨ ∀ c ∈ bytes "idna_flag_use_std3_ascii_rules", c < 128) ∧
    _parse_constant latin5Locale (readyTable latin5Locale libidn) .SCOPE_IDNA
      (bytes "idna_flag_use_std3_ascii_rules") = 2 ∧
    _parse_constant latin5Locale (readyTable latin5Locale libidn) .SCOPE_IDNA2
      (bytes "idna_flag_use_std3_ascii_rules") = -1 :=
  have h0 : 0 ∉ bytes "idna_flag_use_std3_ascii_rules" := by decide
  have h7 : latin5Locale.KeepsHighBit ∨ ∀ c ∈ bytes "idna_flag_use_std3_ascii_rules", c < 128 :=
    Or.inr (by decide)
  ⟨libidn_nonNeg, h0, h7,
    (parse_constant_spec latin5Locale libidn libidn_nonNeg .SCOPE_IDNA
      (bytes "idna_flag_use_std3_ascii_rules") h0).1
      { scope := .SCOPE_IDNA, name := bytes "IDNA_FLAG_USE_STD3_ASCII_RULES", value := 2,
        description := "Check output to make sure it is a STD3 conforming host name." }
      (by decide) rfl (by decide),
    (parse_constant_spec latin5Locale libidn libidn_nonNeg .SCOPE_IDNA2
      (bytes "idna_flag_use_std3_ascii_rules") h0).2.1 h7 (by decide)⟩

/-! ### The loop of `parse_constant_multi` -/

theorem cstring_of_no_nul (s : List Nat) (h : 0 ∉ s) : cstring s = s := by
  unfold cstring
  rw [List.takeWhile_eq_self_iff]
  intro x hx
  have : x ≠ 0 := fun e => h (e ▸ hx)
  simpa using this

theorem strchr_none : ∀ (s : List Nat), 124 ∉ s → strchr s 124 = none
  | [], _ => rfl
  | b :: s, h => by
    have hb : b ≠ 124 := fun e => h (by simp [e])
    have hs : 124 ∉ s := fun e => h (List.mem_cons_of_mem _ e)
    simp [strchr, hb, strchr_none s hs]

theorem strchr_append_bar : ∀ (s rest : List Nat), 124 ∉ s → 0 ∉ s →
    strchr (s ++ 124 :: rest) 124 = some s.length
  | [], _, _, _ => by simp [strchr]
  | b :: s, rest, h, h0 => by
    have hb : b ≠ 124 := fun e => h (by simp [e])
    have hb0 : b ≠ 0 := fun e => h0 (by simp [e])
    have hs : 124 ∉ s := fun e => h (List.mem_cons_of_mem _ e)
    have hs0 : 0 ∉ s := fun e => h0 (List.mem_cons_of_mem _ e)
    simp [strchr, hb, hb0, strchr_append_bar s rest hs hs0]

theorem intercalate_bar_cons_cons (a b : List Nat) (rest : List (List Nat)) :
    [124].intercalate (a :: b :: rest) = a ++ 124 :: [124].intercalate (b :: rest) := by
  simp [List.intercalate]

theorem intercalate_bar_single (a : List Nat) : [124].intercalate [a] = a := by
  simp [List.intercalate]

theorem length_le_intercalate : ∀ (names : List (List Nat)),
    names.length ≤ ([124].intercalate names).length + 1
  | [] => by simp
  | [a] => by simp
  | a :: b :: rest => by
    have ih := length_le_intercalate (b :: rest)
    rw [intercalate_bar_cons_cons]
    simp only [List.length_cons, List.length_append] at ih ⊢
    omega

/-- One turn of the loop on a string that goes on after its first segment. -/
theorem loop_step_bar (L : CtypeLocale) (table : List idn_constants_struct)
    (scope : constant_scope) (fuel : Nat) (seg rest : List Nat) (ret : Int)
    (h : 124 ∉ seg) (h0 : 0 ∉ seg) :
    parse_constant_multi_loop L table scope (fuel + 1) (seg ++ 124 :: rest) ret =
      if _parse_constant L table scope seg < 0 then some (.error (.unknown_constant seg))
      else parse_constant_multi_loop L table scope fuel rest
        (Int.lor ret (_parse_constant L table scope seg)) := by
  rw [parse_constant_multi_loop]
  simp only [strchr_append_bar seg rest h h0, List.take_left, cstring_of_no_nul seg h0]
  have hd : List.drop (seg.length + 1) (seg ++ 124 :: rest) = rest := by
    rw [List.drop_append_eq_append_drop]
    simp
  rw [hd]

/-- The last turn of the loop: the string is one segment. -/
theorem loop_step_last (L : CtypeLocale) (table : List idn_constants_struct)
    (scope : constant_scope) (fuel : Nat) (seg : List Nat) (ret : Int)
    (h : 124 ∉ seg) (h0 : 0 ∉ seg) :
    parse_constant_multi_loop L table scope (fuel + 1) seg ret =
      if _parse_constant L table scope seg < 0 then some (.error (.unknown_constant seg))
      else some (.ok (Int.lor ret (_parse_constant L table scope seg))) := by
  rw [parse_constant_multi_loop]
  simp only [strchr_none seg h, cstring_of_no_nul seg h0]

/-- The loop on the join of segments that all resolve returns the OR of their
values. -/
theorem loop_all_resolve (L : CtypeLocale) (table : List idn_constants_struct)
    (scope : constant_scope) :
    ∀ (names : List (List Nat)) (fuel : Nat) (ret : Int), names ≠ [] → names.length ≤ fuel →
      (∀ n ∈ names, 124 ∉ n ∧ 0 ∉ n) → (∀ n ∈ names, Resolves L table scope n) →
      parse_constant_multi_loop L table scope fuel ([124].intercalate names) ret =
        some (.ok (orOfValues L table scope ret names))
  | [], _, _, hne, _, _, _ => absurd rfl hne
  | [a], fuel, ret, _, hf, hwf, hres => by
    obtain ⟨k, rfl⟩ : ∃ k, fuel = k + 1 := ⟨fuel - 1, by simp at hf; omega⟩
    have ha := hwf a (List.mem_singleton_self a)
    have hr : ¬ _parse_constant L table scope a < 0 := not_lt.mpr (hres a (List.mem_singleton_self a))
    rw [intercalate_bar_single, loop_step_last L table scope k a ret ha.1 ha.2, if_neg hr]
    rfl
  | a :: b :: rest, fuel, ret, _, hf, hwf, hres => by
    obtain ⟨k, rfl⟩ : ∃ k, fuel = k + 1 := ⟨fuel - 1, by simp at hf; omega⟩
    have ha := hwf a (List.mem_cons_self _ _)
    have hr : ¬ _parse_constant L table scope a < 0 := not_lt.mpr (hres a (List.mem_cons_self _ _))
    rw [intercalate_bar_cons_cons, loop_step_bar L table scope k a _ ret ha.1 ha.2, if_neg hr]
    rw [loop_all_resolve L table scope (b :: rest) k _ (List.cons_ne_nil _ _)
      (by simp at hf ⊢; omega)
      (fun n hn => hwf n (List.mem_cons_of_mem _ hn))
      (fun n hn => hres n (List.mem_cons_of_mem _ hn))]
    rfl

/-- The loop stops at the first segment that does not resolve and reports it. -/
theorem loop_first_unresolved (L : CtypeLocale) (table : List idn_constants_struct)
    (scope : constant_scope) (seg : List Nat) (post : List (List Nat)) :
    ∀ (pre : List (List Nat)) (fuel : Nat) (ret : Int), pre.length + 1 ≤ fuel →
      (∀ n ∈ pre ++ seg :: post, 124 ∉ n ∧ 0 ∉ n) → (∀ n ∈ pre, Resolves L table scope n) →
      ¬ Resolves L table scope seg →
      parse_constant_multi_loop L table scope fuel ([124].intercalate (pre ++ seg :: post)) ret =
        some (.error (.unknown_constant seg))
  | [], fuel, ret, hf, hwf, _, hseg => by
    obtain ⟨k, rfl⟩ : ∃ k, fuel = k + 1 := ⟨fuel - 1, by simp at hf; omega⟩
    have hs := hwf seg (by simp)
    have hr : _parse_constant L table scope seg < 0 := not_le.mp hseg
    cases post with
    | nil =>
      rw [List.nil_append, intercalate_bar_single,
        loop_step_last L table scope k seg ret hs.1 hs.2, if_pos hr]
    | cons b rest =>
      rw [List.nil_append, intercalate_bar_cons_cons,
        loop_step_bar L table scope k seg _ ret hs.1 hs.2, if_pos hr]
  | a :: pre, fuel, ret, hf, hwf, hres, hseg => by
    obtain ⟨k, rfl⟩ : ∃ k, fuel = k + 1 := ⟨fuel - 1, by simp at hf; omega⟩
    have ha := hwf a (by simp)
    have hr : ¬ _parse_constant L table scope a < 0 := not_lt.mpr (hres a (List.mem_cons_self _ _))
    have hshape : ∃ b rest, pre ++ seg :: post = b :: rest := by
      cases pre with
      | nil => exact ⟨seg, post, rfl⟩
      | cons b pre2 => exact ⟨b, pre2 ++ seg :: post, rfl⟩
    obtain ⟨b, rest, hbr⟩ := hshape
    have ih := loop_first_unresolved L table scope seg post pre k
      (Int.lor ret (_parse_constant L table scope a)) (by simp at hf ⊢; omega)
      (fun n hn => hwf n (List.mem_cons_of_mem _ hn))
      (fun n hn => hres n (List.mem_cons_of_mem _ hn)) hseg
    rw [List.cons_append, hbr, intercalate_bar_cons_cons,
      loop_step_bar L table scope k a _ ret ha.1 ha.2, if_neg hr, ← hbr]
    exact ih

/-- The pieces of `splitOn` do not contain the separator and are made of bytes
of the string. -/
theorem splitOn_piece (x : Nat) : ∀ (xs : List Nat), ∀ s ∈ xs.splitOn x, x ∉ s ∧ ∀ c ∈ s, c ∈ xs
  | [] => by
    intro s hs
    simp [List.splitOn] at hs
    subst hs
    simp
  | a :: as => by
    intro s hs
    have ih := splitOn_piece x as
    simp only [List.splitOn] at hs ih
    rw [List.splitOnP_cons] at hs
    by_cases hax : (a == x) = true
    · rw [if_pos hax] at hs
      rcases List.mem_cons.1 hs with rfl | hs2
      · simp
      · obtain ⟨h1, h2⟩ := ih s hs2
        exact ⟨h1, fun c hc => List.mem_cons_of_mem _ (h2 c hc)⟩
    · rw [if_neg hax] at hs
      have hne : a ≠ x := fun e => hax (by simp [e])
      cases hsp : List.splitOnP (fun y => y == x) as with
      | nil => exact absurd hsp (List.splitOnP_ne_nil _ _)
      | cons hd tl =>
        rw [hsp] at hs ih
        simp only [List.modifyHead_cons] at hs
        rcases List.mem_cons.1 hs with rfl | hs2
        · obtain ⟨h1, h2⟩ := ih hd (List.mem_cons_self _ _)
          refine ⟨?_, ?_⟩
          · intro hmem
            rcases List.mem_cons.1 hmem with e | e
            · exact hne e.symm
            · exact h1 e
          · intro c hc
            rcases List.mem_cons.1 hc with e | e
            · simp [e]
            · exact List.mem_cons_of_mem _ (h2 c e)
        · obtain ⟨h1, h2⟩ := ih s (List.mem_cons_of_mem _ hs2)
          exact ⟨h1, fun c hc => List.mem_cons_of_mem _ (h2 c hc)⟩

theorem int_lor_natCast (a b : Nat) : Int.lor (a : Int) (b : Int) = ((a ||| b : Nat) : Int) := rfl

theorem int_lor_comm_of_nonneg {a b : Int} (ha : 0 ≤ a) (hb : 0 ≤ b) :
    Int.lor a b = Int.lor b a := by
  obtain ⟨m, rfl⟩ := Int.eq_ofNat_of_zero_le ha
  obtain ⟨n, rfl⟩ := Int.eq_ofNat_of_zero_le hb
  rw [int_lor_natCast, int_lor_natCast, Nat.lor_comm]

theorem int_zero_lor_of_nonneg {a : Int} (ha : 0 ≤ a) : Int.lor 0 a = a := by
  obtain ⟨m, rfl⟩ := Int.eq_ofNat_of_zero_le ha
  have : Int.lor ((0 : Nat) : Int) (m : Int) = ((0 ||| m : Nat) : Int) := int_lor_natCast 0 m
  simpa using this

theorem fold_ne_zero (L : CtypeLocale) (hL : L.LowerNotNul) {x : Nat} (hx : x ≠ 0) :
    fold L x ≠ 0 := by
  unfold fold
  by_cases h1 : 65 ≤ x ∧ x ≤ 90
  · rw [if_pos h1]; omega
  · rw [if_neg h1]
    by_cases h2 : 128 ≤ x ∧ L.isupper x = true
    · rw [if_pos h2]; exact hL x h2.1 h2.2
    · rw [if_neg h2]; exact hx

/-- When the locale lower-cases no byte into NUL, a string that `pg_strcasecmp`
calls equal to a string of 7-bit bytes, none of them a bar, has no bar. -/
theorem pg_strcasecmp_zero_no_bar (L : CtypeLocale) (hL : L.LowerNotNul) :
    ∀ (a b : List Nat), 0 ∉ a → (∀ c ∈ b, (0 < c ∧ c < 128) ∧ asciiLower c ≠ 124) →
      pg_strcasecmp L a b = 0 → 124 ∉ a
  | [], _, _, _, _ => by simp
  | x :: a, [], ha, _, h => by
    exfalso
    have hx : x ≠ 0 := fun e => ha (by simp [e])
    have hf : fold L 0 = 0 := by simp [fold]
    have hfx : fold L x ≠ 0 := fold_ne_zero L hL hx
    simp only [pg_strcasecmp, pg_strcasecmp_step, List.headD_nil, ne_eq, hx, not_false_eq_true,
      if_true, hf, hfx] at h
    omega
  | x :: a, y :: b, ha, hb, h => by
    have hx : x ≠ 0 := fun e => ha (by simp [e])
    have ha2 : 0 ∉ a := fun e => ha (List.mem_cons_of_mem _ e)
    have hy := hb y (List.mem_cons_self _ _)
    have hb2 : ∀ c ∈ b, (0 < c ∧ c < 128) ∧ asciiLower c ≠ 124 :=
      fun c hc => hb c (List.mem_cons_of_mem _ hc)
    have h124 : asciiLower 124 = 124 := by decide
    simp only [pg_strcasecmp, List.headD_cons, List.tail_cons] at h
    by_cases hf : fold L x = fold L y
    · have hfx : fold L x ≠ 0 := fold_ne_zero L hL hx
      have hs : pg_strcasecmp_step L x y = none := by
        by_cases hxy : x = y
        · subst hxy; simp [pg_strcasecmp_step, hx]
        · simp [pg_strcasecmp_step, hxy, hf]
          rw [← hf]; exact hfx
      rw [hs] at h
      have ih := pg_strcasecmp_zero_no_bar L hL a b ha2 hb2 h
      have hxb : x ≠ 124 := by
        intro e
        rw [e, fold_of_ascii L (by omega : 124 < 128), fold_of_ascii L hy.1.2, h124] at hf
        exact hy.2 hf.symm
      intro hmem
      rcases List.mem_cons.1 hmem with e | e
      · exact hxb e.symm
      · exact ih e
    · exfalso
      have hxy : x ≠ y := fun e => hf (by rw [e])
      have hs : pg_strcasecmp_step L x y = some ((fold L x : Int) - (fold L y : Int)) := by
        simp [pg_strcasecmp_step, hxy, hf]
      rw [hs] at h
      simp only at h
      omega

theorem cLocale_lowerNotNul : cLocale.LowerNotNul := by
  intro c _ hu
  simp [cLocale] at hu

theorem latin5Locale_lowerNotNul : latin5Locale.LowerNotNul := by
  intro c hc hu
  simp only [latin5Locale, decide_eq_true_eq] at hu ⊢
  split_ifs <;> omega

/-- When the locale lower-cases no byte into NUL, a name that resolves in the
sorted table contains no bar. -/
theorem resolves_no_bar (L : CtypeLocale) (hL : L.LowerNotNul) (H : LibidnHeaders)
    (scope : constant_scope) (name : List Nat) (hname : 0 ∉ name)
    (h : Resolves L (sortedConstants H) scope name) : 124 ∉ name := by
  have hne : _parse_constant L (sortedConstants H) scope name ≠ -1 := by
    unfold Resolves at h; omega
  obtain ⟨e, he, _, hz, _⟩ := lookup_hit L H scope name hne
  exact pg_strcasecmp_zero_no_bar L hL name e.name hname (table_names_ascii H e he) hz

/-- The join of names that resolve after `_PG_init` parses to the OR of their
values. -/
theorem parse_join_resolving (L : CtypeLocale) (H : LibidnHeaders)
    (scope : constant_scope) (names : List (List Nat)) (hne : names ≠ [])
    (hnul : ∀ n ∈ names, 0 ∉ n) (hbar : (∀ n ∈ names, 124 ∉ n) ∨ L.LowerNotNul)
    (hres : ∀ n ∈ names, Resolves L (readyTable L H) scope n) :
    parse_constant_multi L (readyTable L H) scope ([124].intercalate names) =
      some (.ok (orOfValues L (readyTable L H) scope 0 names)) := by
  unfold parse_constant_multi
  refine loop_all_resolve L (readyTable L H) scope names _ 0 hne (length_le_intercalate names)
    (fun n hn => ⟨?_, hnul n hn⟩) hres
  rcases hbar with hb | hL
  · exact hb n hn
  · have := hres n hn
    rw [readyTable_eq] at this
    exact resolves_no_bar L hL H scope n (hnul n hn) this
theorem lookup_no_nfkc (L : CtypeLocale) (H : LibidnHeaders) :
    _parse_constant L (readyTable L H) .SCOPE_STRINGPREP (bytes "STRINGPREP_FLAG_NO_NFKC") =
      H.STRINGPREP_NO_NFKC := by
  rw [readyTable_eq]
  exact lookup_own_name L H ((sortedConstants H).get ⟨1, by simp [sortedConstants]⟩)
    (List.get_mem _ _ _)

theorem lookup_no_bidi (L : CtypeLocale) (H : LibidnHeaders) :
    _parse_constant L (readyTable L H) .SCOPE_STRINGPREP (bytes "STRINGPREP_FLAG_NO_BIDI") =
      H.STRINGPREP_NO_BIDI := by
  rw [readyTable_eq]
  exact lookup_own_name L H ((sortedConstants H).get ⟨0, by simp [sortedConstants]⟩)
    (List.get_mem _ _ _)

/-- C2. After `_PG_init`, for a non-empty list of names that each resolve in the
scope, `parse_constant_multi` on the names joined with `|` returns the bitwise OR
of their registered values; in particular
`STRINGPREP_FLAG_NO_NFKC|STRINGPREP_FLAG_NO_BIDI` in the scope Stringprep gives
`STRINGPREP_NO_NFKC | STRINGPREP_NO_BIDI`. The first part holds in every locale
for names without a `|`; in a locale of the C library, which lower-cases no byte
into NUL, a name that resolves has no `|`, and it holds for all names. The
second part holds in every locale. -/
theorem parse_constant_multi_or (L : CtypeLocale) (H : LibidnHeaders) (hH : H.NonNeg) :
    (∀ (scope : constant_scope) (names : List (List Nat)), names ≠ [] →
      (∀ n ∈ names, 0 ∉ n) → ((∀ n ∈ names, 124 ∉ n) ∨ L.LowerNotNul) →
      (∀ n ∈ names, Resolves L (readyTable L H) scope n) →
      parse_constant_multi L (readyTable L H) scope ([124].intercalate names) =
        some (.ok (orOfValues L (readyTable L H) scope 0 names))) ∧
    parse_constant_multi L (readyTable L H) .SCOPE_STRINGPREP
        (bytes "STRINGPREP_FLAG_NO_NFKC|STRINGPREP_FLAG_NO_BIDI") =
      some (.ok (Int.lor H.STRINGPREP_NO_NFKC H.STRINGPREP_NO_BIDI)) := by
  refine ⟨fun scope names hne hnul hbar hres =>
    parse_join_resolving L H scope names hne hnul hbar hres, ?_⟩
  obtain ⟨h1, h2, _⟩ := hH
  have hjoin : bytes "STRINGPREP_FLAG_NO_NFKC|STRINGPREP_FLAG_NO_BIDI" =
      [124].intercalate [bytes "STRINGPREP_FLAG_NO_NFKC", bytes "STRINGPREP_FLAG_NO_BIDI"] := by
    decide
  rw [hjoin, parse_join_resolving L H .SCOPE_STRINGPREP _ (List.cons_ne_nil _ _)
    (by decide) (Or.inl (by decide)) ?_]
  · simp only [orOfValues, List.foldl_cons, List.foldl_nil, lookup_no_nfkc, lookup_no_bidi]
    rw [int_zero_lor_of_nonneg h1]
  · intro n hn
    simp only [List.mem_cons, List.mem_singleton, List.not_mem_nil, or_false] at hn
    rcases hn with rfl | rfl
    · unfold Resolves; rw [lookup_no_nfkc]; exact h1
    · unfold Resolves; rw [lookup_no_bidi]; exact h2

set_option maxRecDepth 100000 in
/-- C2 in the Turkish single-byte locale with the header values of libidn: three
names of the scope IDNA2003, one of them in lower case. -/
theorem parse_constant_multi_or_witness :
    libidn.NonNeg ∧
    [bytes "IDNA_FLAG_ALLOW_UNASSIGNED", bytes "idna_flag_use_std3_ascii_rules",
      bytes "IDNA_FLAG_NONE"] ≠ [] ∧
    (∀ n ∈ [bytes "IDNA_FLAG_ALLOW_UNASSIGNED", bytes "idna_flag_use_std3_ascii_rules",
      bytes "IDNA_FLAG_NONE"], 0 ∉ n) ∧
    ((∀ n ∈ [bytes "IDNA_FLAG_ALLOW_UNASSIGNED", bytes "idna_flag_use_std3_ascii_rules",
      bytes "IDNA_FLAG_NONE"], 124 ∉ n) ∨ latin5Locale.LowerNotNul) ∧
    (∀ n ∈ [bytes "IDNA_FLAG_ALLOW_UNASSIGNED", bytes "idna_flag_use_std3_ascii_rules",
      bytes "IDNA_FLAG_NONE"],
      Resolves latin5Locale (readyTable latin5Locale libidn) .SCOPE_IDNA n) ∧
    parse_constant_multi latin5Locale (readyTable latin5Locale libidn) .SCOPE_IDNA
      (bytes "IDNA_FLAG_ALLOW_UNASSIGNED|idna_flag_use_std3_ascii_rules|IDNA_FLAG_NONE") =
      some (.ok 3) ∧
    parse_constant_multi latin5Locale (readyTable latin5Locale libidn) .SCOPE_STRINGPREP
      (bytes "STRINGPREP_FLAG_NO_NFKC|STRINGPREP_FLAG_NO_BIDI") = some (.ok 3) :=
  have h := parse_constant_multi_or latin5Locale libidn libidn_nonNeg
  have h1 := h.1 .SCOPE_IDNA
    [bytes "IDNA_FLAG_ALLOW_UNASSIGNED", bytes "idna_flag_use_std3_ascii_rules",
      bytes "IDNA_FLAG_NONE"] (by decide) (by decide) (Or.inl (by decide)) (by decide)
  ⟨libidn_nonNeg, by decide, by decide, Or.inl (by decide), by decide,
    (show _ = _ from h1).trans (by decide), (show _ = _ from h.2).trans (by decide)⟩

/-- C3. When a segment of the string does not resolve in the scope,
`parse_constant_multi` leaves with the error "Unknown constant name" for the
leftmost such segment, whatever the table holds, and returns no mask. -/
theorem parse_constant_multi_unknown (L : CtypeLocale) (table : List idn_constants_struct)
    (scope : constant_scope) (str : List Nat) (hstr : 0 ∉ str)
    (pre : List (List Nat)) (seg : List Nat) (post : List (List Nat))
    (hsplit : str.splitOn 124 = pre ++ seg :: post)
    (hpre : ∀ n ∈ pre, Resolves L table scope n) (hseg : ¬ Resolves L table scope seg) :
    parse_constant_multi L table scope str = some (.error (.unknown_constant seg)) ∧
    ∀ mask, parse_constant_multi L table scope str ≠ some (.ok mask) := by
  have key : parse_constant_multi L table scope str = some (.error (.unknown_constant seg)) := by
    have hj : [124].intercalate (pre ++ seg :: post) = str := by
      rw [← hsplit]; exact List.intercalate_splitOn str 124
    have hwf : ∀ n ∈ pre ++ seg :: post, 124 ∉ n ∧ 0 ∉ n := by
      intro n hn
      rw [← hsplit] at hn
      obtain ⟨h1, h2⟩ := splitOn_piece 124 str n hn
      exact ⟨h1, fun h0 => hstr (h2 0 h0)⟩
    have hlen := length_le_intercalate (pre ++ seg :: post)
    rw [hj] at hlen
    unfold parse_constant_multi
    have := loop_first_unresolved L table scope seg post pre (str.length + 1) 0
      (by simp at hlen; omega) hwf hpre hseg
    rw [hj] at this
    exact this
  refine ⟨key, ?_⟩
  intro mask h
  rw [key] at h
  cases h

set_option maxRecDepth 100000 in
/-- C3 for a valid name followed by two unknown ones: the first unknown one is
reported. -/
theorem parse_constant_multi_unknown_witness :
    0 ∉ bytes "IDNA_FLAG_NONE|NOT_A_REAL_FLAG|ALSO_BAD" ∧
    (bytes "IDNA_FLAG_NONE|NOT_A_REAL_FLAG|ALSO_BAD").splitOn 124 =
      [bytes "IDNA_FLAG_NONE"] ++ bytes "NOT_A_REAL_FLAG" :: [bytes "ALSO_BAD"] ∧
    (∀ n ∈ [bytes "IDNA_FLAG_NONE"], Resolves cLocale (readyTable cLocale libidn) .SCOPE_IDNA n) ∧
    ¬ Resolves cLocale (readyTable cLocale libidn) .SCOPE_IDNA (bytes "NOT_A_REAL_FLAG") ∧
    parse_constant_multi cLocale (readyTable cLocale libidn) .SCOPE_IDNA
      (bytes "IDNA_FLAG_NONE|NOT_A_REAL_FLAG|ALSO_BAD") =
      some (.error (.unknown_constant (bytes "NOT_A_REAL_FLAG"))) :=
  ⟨by decide, by decide, by decide, by decide,
    (parse_constant_multi_unknown cLocale (readyTable cLocale libidn) .SCOPE_IDNA
      (bytes "IDNA_FLAG_NONE|NOT_A_REAL_FLAG|ALSO_BAD") (by decide)
      [bytes "IDNA_FLAG_NONE"] (bytes "NOT_A_REAL_FLAG") [bytes "ALSO_BAD"]
      (by decide) (by decide) (by decide)).1⟩

set_option maxRecDepth 100000 in
/-- C4 as stated fails: in the scope Stringprep the empty string does not give
the mask 0, it gives the error "Unknown constant name" with an empty name. -/
theorem empty_flags_counterexample :
    parse_constant_multi cLocale (readyTable cLocale libidn) .SCOPE_STRINGPREP (bytes "") ≠
      some (.ok 0) ∧
    parse_constant_multi cLocale (readyTable cLocale libidn) .SCOPE_STRINGPREP (bytes "") =
      some (.error (.unknown_constant [])) := by
  decide

set_option maxRecDepth 100000 in
set_option maxHeartbeats 4000000 in
/-- The empty name is in no scope of the sorted table. -/
theorem lookup_empty_name (L : CtypeLocale) (H : LibidnHeaders) (scope : constant_scope) :
    _parse_constant L (sortedConstants H) scope [] = -1 := by
  cases scope <;>
  simp [_parse_constant, bsearch, bsearch_loop, sortedConstants, constants_compare, pg_strcasecmp,
    pg_strcasecmp_step, fold, bytes, constant_scope.toNat]

/-- C4, amended. After `_PG_init`, for every scope, `parse_constant_multi` on the
empty string looks up the one, empty, segment, which is in no scope, and leaves
with the error "Unknown constant name" for the empty name; it returns no mask. -/
theorem parse_constant_multi_empty (L : CtypeLocale) (H : LibidnHeaders)
    (scope : constant_scope) :
    parse_constant_multi L (readyTable L H) scope [] = some (.error (.unknown_constant [])) := by
  rw [readyTable_eq]
  simp [parse_constant_multi, parse_constant_multi_loop, strchr, lookup_empty_name, cstring]

/-- C5. After `_PG_init`, two names that are equal up to the case of ASCII
letters get the same answer from `_parse_constant` in every scope; so do
`idna_flag_none` and `IDNA_FLAG_NONE`. -/
theorem parse_constant_case_insensitive (L : CtypeLocale) (H : LibidnHeaders)
    (scope : constant_scope) (a b : List Nat) (h : EqIgnoreAsciiCase a b) :
    _parse_constant L (readyTable L H) scope a = _parse_constant L (readyTable L H) scope b ∧
    _parse_constant L (readyTable L H) scope (bytes "idna_flag_none") =
      _parse_constant L (readyTable L H) scope (bytes "IDNA_FLAG_NONE") :=
  ⟨parse_constant_congr L _ scope a b h,
    parse_constant_congr L _ scope _ _ (by decide)⟩

set_option maxRecDepth 100000 in
/-- C5 for a mixed-case spelling of `IDN2_FLAG_NFC_INPUT`. -/
theorem parse_constant_case_insensitive_witness :
    EqIgnoreAsciiCase (bytes "Idn2_Flag_nfc_INPUT") (bytes "IDN2_FLAG_NFC_INPUT") ∧
    _parse_constant cLocale (readyTable cLocale libidn) .SCOPE_IDNA2 (bytes "Idn2_Flag_nfc_INPUT") =
      _parse_constant cLocale (readyTable cLocale libidn) .SCOPE_IDNA2 (bytes "IDN2_FLAG_NFC_INPUT") ∧
    _parse_constant cLocale (readyTable cLocale libidn) .SCOPE_IDNA2 (bytes "Idn2_Flag_nfc_INPUT") = 1 :=
  ⟨by decide,
    (parse_constant_case_insensitive cLocale libidn .SCOPE_IDNA2 (bytes "Idn2_Flag_nfc_INPUT")
      (bytes "IDN2_FLAG_NFC_INPUT") (by decide)).1, by decide⟩

/-- C6. After `_PG_init`, for two names `A` and `B` that resolve in the scope,
`parse_constant_multi` on `A|B` and on `B|A` both return, and return the same
mask. This holds in every locale for names without a `|`; in a locale of the C
library, which lower-cases no byte into NUL, a name that resolves has no `|`,
and it holds for all names. -/
theorem parse_constant_multi_comm (L : CtypeLocale) (H : LibidnHeaders)
    (scope : constant_scope) (A B : List Nat) (hA0 : 0 ∉ A) (hB0 : 0 ∉ B)
    (hbar : (124 ∉ A ∧ 124 ∉ B) ∨ L.LowerNotNul)
    (hA : Resolves L (readyTable L H) scope A) (hB : Resolves L (readyTable L H) scope B) :
    ∃ mask, parse_constant_multi L (readyTable L H) scope (A ++ 124 :: B) = some (.ok mask) ∧
      parse_constant_multi L (readyTable L H) scope (B ++ 124 :: A) = some (.ok mask) := by
  have hbar2 : ∀ l : List (List Nat), (∀ n ∈ l, n = A ∨ n = B) →
      (∀ n ∈ l, 124 ∉ n) ∨ L.LowerNotNul := by
    intro l hl
    rcases hbar with ⟨h1, h2⟩ | h
    · left
      intro n hn
      rcases hl n hn with rfl | rfl
      · exact h1
      · exact h2
    · exact Or.inr h
  have hAB := parse_join_resolving L H scope [A, B] (List.cons_ne_nil _ _)
    (by intro n hn; simp at hn; rcases hn with rfl | rfl <;> assumption)
    (hbar2 _ (by intro n hn; simpa using hn))
    (by intro n hn; simp at hn; rcases hn with rfl | rfl <;> assumption)
  have hBA := parse_join_resolving L H scope [B, A] (List.cons_ne_nil _ _)
    (by intro n hn; simp at hn; rcases hn with rfl | rfl <;> assumption)
    (hbar2 _ (by intro n hn; simp at hn; exact hn.symm))
    (by intro n hn; simp at hn; rcases hn with rfl | rfl <;> assumption)
  rw [intercalate_bar_cons_cons, intercalate_bar_single] at hAB hBA
  refine ⟨_, hAB, ?_⟩
  rw [hBA]
  unfold Resolves at hA hB
  simp only [orOfValues, List.foldl_cons, List.foldl_nil]
  rw [int_zero_lor_of_nonneg hA, int_zero_lor_of_nonneg hB, int_lor_comm_of_nonneg hA hB]

set_option maxRecDepth 100000 in
/-- C6 for the two flags of the scope IDNA2003, in the Turkish single-byte
locale. -/
theorem parse_constant_multi_comm_witness :
    0 ∉ bytes "IDNA_FLAG_ALLOW_UNASSIGNED" ∧
    0 ∉ bytes "IDNA_FLAG_USE_STD3_ASCII_RULES" ∧
    ((124 ∉ bytes "IDNA_FLAG_ALLOW_UNASSIGNED" ∧ 124 ∉ bytes "IDNA_FLAG_USE_STD3_ASCII_RULES") ∨
      latin5Locale.LowerNotNul) ∧
    Resolves latin5Locale (readyTable latin5Locale libidn) .SCOPE_IDNA
      (bytes "IDNA_FLAG_ALLOW_UNASSIGNED") ∧
    Resolves latin5Locale (readyTable latin5Locale libidn) .SCOPE_IDNA
      (bytes "IDNA_FLAG_USE_STD3_ASCII_RULES") ∧
    ∃ mask, parse_constant_multi latin5Locale (readyTable latin5Locale libidn) .SCOPE_IDNA
        (bytes "IDNA_FLAG_ALLOW_UNASSIGNED" ++ 124 :: bytes "IDNA_FLAG_USE_STD3_ASCII_RULES") =
        some (.ok mask) ∧
      parse_constant_multi latin5Locale (readyTable latin5Locale libidn) .SCOPE_IDNA
        (bytes "IDNA_FLAG_USE_STD3_ASCII_RULES" ++ 124 :: bytes "IDNA_FLAG_ALLOW_UNASSIGNED") =
        some (.ok mask) :=
  ⟨by decide, by decide, Or.inr latin5Locale_lowerNotNul, by decide, by decide,
    parse_constant_multi_comm latin5Locale libidn .SCOPE_IDNA
      (bytes "IDNA_FLAG_ALLOW_UNASSIGNED") (bytes "IDNA_FLAG_USE_STD3_ASCII_RULES")
      (by decide) (by decide) (Or.inr latin5Locale_lowerNotNul) (by decide) (by decide)⟩


/-! ### The printable-ASCII scan -/

theorem ascii_check_loop_iff (src : List Nat) : ∀ (n i : Nat),
    ascii_check_loop src n i = true ↔
      ∀ j, i ≤ j → j < i + n → 0x20 ≤ src.getD j 0 ∧ src.getD j 0 ≤ 0x7E
  | 0, i => by
    simp only [ascii_check_loop, true_iff]
    intro j h1 h2
    omega
  | n + 1, i => by
    rw [ascii_check_loop]
    by_cases h : 0x20 ≤ src.getD i 0 ∧ src.getD i 0 ≤ 0x7E
    · rw [if_pos h, ascii_check_loop_iff src n (i + 1)]
      constructor
      · intro hall j h1 h2
        by_cases hj : j = i
        · subst hj; exact h
        · exact hall j (by omega) (by omega)
      · intro hall j h1 h2
        exact hall j (by omega) (by omega)
    · rw [if_neg h]
      constructor
      · intro hf; cases hf
      · intro hall
        exact absurd (hall i (Nat.le_refl i) (by omega)) h

/-- C7. `ascii_check(src, slen)` on a sequence of `slen` bytes is true exactly
when every byte lies in 0x20..0x7E; so it is false as soon as one byte is below
0x20 or above 0x7E (0x7F and the bytes from 0x80 on included), and true for the
empty sequence. -/
theorem ascii_check_iff (src : List Nat) :
    (ascii_check src src.length = true ↔ ∀ b ∈ src, 0x20 ≤ b ∧ b ≤ 0x7E) ∧
    ((∃ b ∈ src, b < 0x20 ∨ 0x7E < b) → ascii_check src src.length = false) ∧
    (∀ pre post b, 0x7F ≤ b → ascii_check (pre ++ b :: post) (pre ++ b :: post).length = false) ∧
    ascii_check [] 0 = true := by
  have main : ∀ l : List Nat, ascii_check l l.length = true ↔ ∀ b ∈ l, 0x20 ≤ b ∧ b ≤ 0x7E := by
    intro l
    unfold ascii_check
    rw [ascii_check_loop_iff]
    constructor
    · intro h b hb
      obtain ⟨j, hj, rfl⟩ := List.getElem_of_mem hb
      have := h j (Nat.zero_le j) (by omega)
      rwa [List.getD_eq_getElem l 0 hj] at this
    · intro h j _ hj
      have hj2 : j < l.length := by omega
      rw [List.getD_eq_getElem l 0 hj2]
      exact h _ (List.getElem_mem hj2)
  have neg : ∀ l : List Nat, (∃ b ∈ l, b < 0x20 ∨ 0x7E < b) → ascii_check l l.length = false := by
    intro l hex
    obtain ⟨b, hb, hbad⟩ := hex
    cases hc : ascii_check l l.length with
    | false => rfl
    | true =>
      have := (main l).1 hc b hb
      omega
  refine ⟨main src, neg src, ?_, rfl⟩
  intro pre post b hb
  exact neg _ ⟨b, by simp, Or.inr (by omega)⟩

/-- C7 on the bytes "a", DEL, "b": the byte 0x7F makes the scan fail. -/
theorem ascii_check_iff_witness :
    (∃ b ∈ [97, 127, 98], b < 0x20 ∨ 0x7E < b) ∧ ascii_check [97, 127, 98] 3 = false :=
  ⟨by decide, (ascii_check_iff [97, 127, 98]).2.1 (by decide)⟩

/-! ### The encoding bridge -/

theorem cstring_append_nul : ∀ (str : List Nat), cstring (str ++ [0]) = cstring str
  | [] => by simp [cstring]
  | b :: str => by
    have ih := cstring_append_nul str
    unfold cstring at ih ⊢
    by_cases hb : b = 0
    · simp [List.takeWhile, hb]
    · simp only [ne_eq, decide_not] at ih
      simp [List.takeWhile, hb, ih]

theorem take_strlen_append_nul (str : List Nat) :
    (str ++ [0]).take (strlen (str ++ [0])) = cstring str := by
  unfold strlen
  rw [cstring_append_nul]
  have hp : cstring str <+: str ++ [0] :=
    (List.takeWhile_prefix _).trans (List.prefix_append _ _)
  exact (List.prefix_iff_eq_take.1 hp).symm

/-- C8. With UTF-8 as database encoding, where the conversion step returns its
input buffer, `text_to_utf8` followed by `utf8_to_text` on the returned buffer
and length gives back a text with the payload of the argument, for both values
of `force_new`. -/
theorem text_utf8_roundtrip (B : Backend) (hdb : B.GetDatabaseEncoding = .PG_UTF8)
    (hsame : B.SameEncodingReturnsSrc) (t : text) (force_new : Bool) :
    ∃ r, text_to_utf8 B t force_new = .ok r ∧
      ∃ t2, utf8_to_text B (r.utf8_src.deref t) r.utf8_srclen = .ok t2 ∧
        t2.data = t.data ∧ t2.data.length = t.data.length := by
  have h1 : ∀ src, B.pg_do_encoding_conversion src B.GetDatabaseEncoding .PG_UTF8 = .same := by
    intro src; rw [hdb]; exact hsame src _
  have h2 : ∀ src, B.pg_do_encoding_conversion src .PG_UTF8 B.GetDatabaseEncoding = .same := by
    intro src; rw [hdb]; exact hsame src _
  cases force_new with
  | true =>
    refine ⟨{ utf8_src := .allocated (t.data ++ [0]), utf8_srclen := t.data.length,
              needs_free := true }, ?_, t, ?_, rfl, rfl⟩
    · simp [text_to_utf8, h1]
    · simp [utf8_to_text, h2, Pointer.deref, cstring_to_text_with_len]
  | false =>
    refine ⟨{ utf8_src := .src, utf8_srclen := t.data.length, needs_free := false }, ?_, t, ?_,
      rfl, rfl⟩
    · simp [text_to_utf8, h1]
    · simp [utf8_to_text, h2, Pointer.deref, cstring_to_text_with_len]

theorem utf8Backend_sameEncoding : utf8Backend.SameEncodingReturnsSrc := by
  intro src e; rfl

/-- C8 on the three bytes of "éA" in UTF-8, with a forced copy. -/
theorem text_utf8_roundtrip_witness :
    utf8Backend.GetDatabaseEncoding = .PG_UTF8 ∧ utf8Backend.SameEncodingReturnsSrc ∧
    ∃ r, text_to_utf8 utf8Backend { data := [195, 169, 65] } true = .ok r ∧
      ∃ t2, utf8_to_text utf8Backend (r.utf8_src.deref { data := [195, 169, 65] }) r.utf8_srclen
          = .ok t2 ∧
        t2.data = [195, 169, 65] ∧ t2.data.length = 3 :=
  ⟨rfl, utf8Backend_sameEncoding,
    text_utf8_roundtrip utf8Backend rfl utf8Backend_sameEncoding { data := [195, 169, 65] } true⟩

/-- C9. In `text_to_utf8`, when the conversion step returns the input buffer:
with `force_new` the result is a new buffer with the `srclen` input bytes and one
0 byte, and `needs_free` is true; without `force_new` the result is the input
buffer, and `needs_free` is false; the reported length is `srclen` in both
cases. When the conversion step returns a new buffer, `needs_free` is true. -/
theorem text_to_utf8_ownership (B : Backend) (t : text) :
    (B.pg_do_encoding_conversion t.data B.GetDatabaseEncoding .PG_UTF8 = .same →
      text_to_utf8 B t true = .ok { utf8_src := .allocated (t.data ++ [0]),
                                    utf8_srclen := t.data.length, needs_free := true } ∧
      text_to_utf8 B t false = .ok { utf8_src := .src,
                                     utf8_srclen := t.data.length, needs_free := false }) ∧
    (∀ str, B.pg_do_encoding_conversion t.data B.GetDatabaseEncoding .PG_UTF8 = .fresh str →
      ∀ force_new, ∃ r, text_to_utf8 B t force_new = .ok r ∧ r.needs_free = true ∧
        r.utf8_src = .allocated (str ++ [0])) := by
  refine ⟨?_, ?_⟩
  · intro h
    simp [text_to_utf8, h]
  · intro str h force_new
    refine ⟨{ utf8_src := .allocated (str ++ [0]), utf8_srclen := strlen (str ++ [0]),
              needs_free := true }, ?_, rfl, rfl⟩
    simp [text_to_utf8, h]

/-- C9 with UTF-8 as database encoding (no conversion) and with a single-byte
database encoding (a conversion). -/
theorem text_to_utf8_ownership_witness :
    utf8Backend.pg_do_encoding_conversion [104, 105] utf8Backend.GetDatabaseEncoding .PG_UTF8
      = .same ∧
    text_to_utf8 utf8Backend { data := [104, 105] } true =
      .ok { utf8_src := .allocated [104, 105, 0], utf8_srclen := 2, needs_free := true } ∧
    text_to_utf8 utf8Backend { data := [104, 105] } false =
      .ok { utf8_src := .src, utf8_srclen := 2, needs_free := false } ∧
    latin1Backend.pg_do_encoding_conversion [233] latin1Backend.GetDatabaseEncoding .PG_UTF8
      = .fresh [195, 169] ∧
    ∃ r, text_to_utf8 latin1Backend { data := [233] } false = .ok r ∧ r.needs_free = true ∧
      r.utf8_src = .allocated ([195, 169] ++ [0]) :=
  have h := (text_to_utf8_ownership utf8Backend { data := [104, 105] }).1 rfl
  ⟨rfl, h.1, h.2, by decide,
    (text_to_utf8_ownership latin1Backend { data := [233] }).2 [195, 169] (by decide) false⟩

/-- C10. In `utf8_to_text(src, srclen)`: when the conversion step returns its
input buffer, as it does with UTF-8 as database encoding, the text holds the
first `srclen` bytes of `src`; when it returns a new buffer, the text holds the
converted string and has the length of the converted string, whatever `srclen`
is. -/
theorem utf8_to_text_length (B : Backend) (src : List Nat) (srclen : Nat) :
    (B.pg_do_encoding_conversion (src.take srclen) .PG_UTF8 B.GetDatabaseEncoding = .same →
      utf8_to_text B src srclen = .ok { data := src.take srclen }) ∧
    (B.GetDatabaseEncoding = .PG_UTF8 → B.SameEncodingReturnsSrc →
      utf8_to_text B src srclen = .ok { data := src.take srclen }) ∧
    (∀ str, B.pg_do_encoding_conversion (src.take srclen) .PG_UTF8 B.GetDatabaseEncoding
        = .fresh str →
      utf8_to_text B src srclen = .ok { data := cstring str } ∧
      (cstring str).length = strlen (str ++ [0]) ∧
      (0 ∉ str → utf8_to_text B src srclen = .ok { data := str })) := by
  refine ⟨?_, ?_, ?_⟩
  · intro h
    simp [utf8_to_text, h, cstring_to_text_with_len]
  · intro hdb hsame
    have h : B.pg_do_encoding_conversion (src.take srclen) .PG_UTF8 B.GetDatabaseEncoding
        = .same := by
      rw [hdb]; exact hsame _ _
    simp [utf8_to_text, h, cstring_to_text_with_len]
  · intro str h
    have key : utf8_to_text B src srclen = .ok { data := cstring str } := by
      simp only [utf8_to_text, h, cstring_to_text_with_len, take_strlen_append_nul]
    refine ⟨key, ?_, ?_⟩
    · unfold strlen; rw [cstring_append_nul]
    · intro h0
      rw [key, cstring_of_no_nul str h0]

/-- C10 with UTF-8 as database encoding, and with a single-byte database
encoding where the four bytes "éé" in UTF-8 become two bytes: the text has length
2 and not `srclen = 4`. -/
theorem utf8_to_text_length_witness :
    utf8Backend.pg_do_encoding_conversion (List.take 2 [104, 105, 0]) .PG_UTF8
      utf8Backend.GetDatabaseEncoding = .same ∧
    utf8_to_text utf8Backend [104, 105, 0] 2 = .ok { data := [104, 105] } ∧
    latin1Backend.pg_do_encoding_conversion (List.take 4 [195, 169, 195, 169, 0]) .PG_UTF8
      latin1Backend.GetDatabaseEncoding = .fresh [233, 233] ∧
    utf8_to_text latin1Backend [195, 169, 195, 169, 0] 4 = .ok { data := [233, 233] } :=
  ⟨rfl, (utf8_to_text_length utf8Backend [104, 105, 0] 2).1 rfl, by decide,
    ((utf8_to_text_length latin1Backend [195, 169, 195, 169, 0] 4).2.2 [233, 233]
      (by decide)).2.2 (by decide)⟩


/-! ### The table before and after `_PG_init` -/

theorem insertSorted_perm {α : Type} (compar : α → α → Int) (x : α) :
    ∀ l : List α, (insertSorted compar x l).Perm (x :: l)
  | [] => List.Perm.refl _
  | y :: ys => by
    unfold insertSorted
    by_cases h : compar x y ≤ 0
    · rw [if_pos h]
    · rw [if_neg h]
      exact ((insertSorted_perm compar x ys).cons y).trans (List.Perm.swap x y ys)

theorem qsort_perm {α : Type} (compar : α → α → Int) :
    ∀ l : List α, (qsort l compar).Perm l
  | [] => List.Perm.refl _
  | x :: l => by
    have ih := qsort_perm compar l
    unfold qsort at ih ⊢
    rw [List.foldr_cons]
    exact (insertSorted_perm compar x _).trans (ih.cons x)

theorem pg_strcasecmp_self (L : CtypeLocale) : ∀ s : List Nat, pg_strcasecmp L s s = 0
  | [] => by simp [pg_strcasecmp, pg_strcasecmp_step]
  | x :: s => by
    have ih := pg_strcasecmp_self L s
    by_cases hx : x = 0
    · simp [pg_strcasecmp, pg_strcasecmp_step, hx]
    · simp [pg_strcasecmp, pg_strcasecmp_step, hx, ih]

/-- Two entries that `constants_compare` orders strictly differ in the scope or in
the name up to ASCII case. -/
theorem distinct_of_compare_neg (L : CtypeLocale) (a b : idn_constants_struct)
    (h : constants_compare L a b < 0) : ¬ (a.scope = b.scope ∧ EqIgnoreAsciiCase a.name b.name) := by
  rintro ⟨hs, hn⟩
  unfold constants_compare at h
  rw [hs] at h
  simp only [lt_self_iff_false, if_false, gt_iff_lt] at h
  rw [pg_strcasecmp_congr L a.name b.name hn b.name, pg_strcasecmp_self] at h
  exact lt_irrefl _ h

set_option maxRecDepth 100000 in
theorem sortedConstants_pairwise_closed :
    List.Pairwise (fun a b => constants_compare cLocale a b < 0) (sortedConstants libidn) := by
  decide

theorem sortedConstants_keys (H : LibidnHeaders) :
    (sortedConstants H).map (fun e => (e.scope, e.name)) =
      (sortedConstants libidn).map (fun e => (e.scope, e.name)) := rfl

theorem sortedConstants_pairwise (L : CtypeLocale) (H : LibidnHeaders) :
    List.Pairwise (fun a b => constants_compare L a b < 0) (sortedConstants H) := by
  have hkey : ∀ l : List idn_constants_struct,
      List.Pairwise (fun a b => constants_compare L a b < 0) l ↔
      List.Pairwise (fun (k1 k2 : constant_scope × List Nat) => constants_compare L
        { scope := k1.1, name := k1.2, value := 0, description := "" }
        { scope := k2.1, name := k2.2, value := 0, description := "" } < 0)
        (l.map (fun e => (e.scope, e.name))) := by
    intro l
    rw [List.pairwise_map]
    exact Iff.rfl
  rw [hkey, sortedConstants_keys, ← hkey]
  refine List.Pairwise.imp_of_mem ?_ sortedConstants_pairwise_closed
  intro a b ha hb h
  have h1 : ∀ c ∈ a.name, c < 128 := fun c hc => (table_names_ascii libidn a ha c hc).1.2
  have h2 : ∀ c ∈ b.name, c < 128 := fun c hc => (table_names_ascii libidn b hb c hc).1.2
  unfold constants_compare at h ⊢
  rw [pg_strcasecmp_ascii_locale L a.name b.name h1 h2]
  exact h

/-- C13. After `_PG_init` the table is a permutation of the 10 entries of the
source and strictly increasing under `constants_compare`: every entry compares
below every later one. So no two entries have the same scope and the same name
up to ASCII case. -/
theorem pg_init_sorted (L : CtypeLocale) (H : LibidnHeaders) :
    (readyTable L H).Perm (_constants H) ∧
    (_constants H).length = 10 ∧
    List.Pairwise (fun a b => constants_compare L a b < 0) (readyTable L H) ∧
    List.Pairwise (fun a b => ¬ (a.scope = b.scope ∧ EqIgnoreAsciiCase a.name b.name))
      (readyTable L H) := by
  have hp : List.Pairwise (fun a b => constants_compare L a b < 0) (readyTable L H) := by
    rw [readyTable_eq]; exact sortedConstants_pairwise L H
  refine ⟨qsort_perm _ _, rfl, hp, hp.imp ?_⟩
  intro a b h
  exact distinct_of_compare_neg L a b h

set_option maxRecDepth 100000 in
set_option maxHeartbeats 4000000 in
theorem unsorted_lookup_none (L : CtypeLocale) (H : LibidnHeaders) :
    _parse_constant L (_constants H) .SCOPE_STRINGPREP (bytes "STRINGPREP_FLAG_NONE") = -1 := by
  simp [_parse_constant, bsearch, bsearch_loop, _constants, constants_compare, pg_strcasecmp,
    pg_strcasecmp_step, fold, bytes, constant_scope.toNat]

set_option maxRecDepth 100000 in
set_option maxHeartbeats 4000000 in
theorem first_pair_compare (L : CtypeLocale) :
    constants_compare L
      { scope := .SCOPE_STRINGPREP, name := bytes "STRINGPREP_FLAG_NONE", value := 0,
        description := "" }
      { scope := .SCOPE_STRINGPREP, name := bytes "STRINGPREP_FLAG_NO_NFKC", value := 0,
        description := "" } = 15 := by
  simp [constants_compare, pg_strcasecmp, pg_strcasecmp_step, fold, bytes, constant_scope.toNat]

/-- C14. Before `_PG_init` the table is not sorted under `constants_compare`: the
entry at index 0, `STRINGPREP_FLAG_NONE`, compares above the entry at index 1,
`STRINGPREP_FLAG_NO_NFKC`, by the difference of the folded bytes `n` and `_`. So
`_PG_init` changes the order of the table, and a lookup in the unsorted table
can miss a registered name that the sorted table finds. -/
theorem constants_unsorted (L : CtypeLocale) (H : LibidnHeaders) :
    (∃ e0 e1 rest, _constants H = e0 :: e1 :: rest ∧
      e0.name = bytes "STRINGPREP_FLAG_NONE" ∧ e1.name = bytes "STRINGPREP_FLAG_NO_NFKC" ∧
      constants_compare L e0 e1 > 0 ∧
      constants_compare L e0 e1 = (fold L 78 : Int) - (fold L 95 : Int)) ∧
    ¬ List.Pairwise (fun a b => constants_compare L a b < 0) (_constants H) ∧
    readyTable L H ≠ _constants H ∧
    _parse_constant L (_constants H) .SCOPE_STRINGPREP (bytes "STRINGPREP_FLAG_NONE") = -1 ∧
    _parse_constant L (readyTable L H) .SCOPE_STRINGPREP (bytes "STRINGPREP_FLAG_NONE") = 0 := by
  have hc : ∀ (v w : Int) (d1 d2 : String), constants_compare L
      { scope := .SCOPE_STRINGPREP, name := bytes "STRINGPREP_FLAG_NONE", value := v,
        description := d1 }
      { scope := .SCOPE_STRINGPREP, name := bytes "STRINGPREP_FLAG_NO_NFKC", value := w,
        description := d2 } = 15 := by
    intro v w d1 d2
    have := first_pair_compare L
    unfold constants_compare at this ⊢
    exact this
  have hf : (fold L 78 : Int) - (fold L 95 : Int) = 15 := by simp [fold]
  have hready : _parse_constant L (readyTable L H) .SCOPE_STRINGPREP
      (bytes "STRINGPREP_FLAG_NONE") = 0 := by
    rw [readyTable_eq]
    exact lookup_own_name L H ((sortedConstants H).get ⟨3, by simp [sortedConstants]⟩)
      (List.get_mem _ _ _)
  have hun := unsorted_lookup_none L H
  refine ⟨⟨_, _, _, rfl, rfl, rfl, ?_, ?_⟩, ?_, ?_, hun, hready⟩
  · rw [hc]; decide
  · rw [hc, hf]
  · intro hp
    have h01 : constants_compare L _ _ < 0 :=
      List.rel_of_pairwise_cons hp (List.mem_cons_self _ _)
    rw [hc] at h01
    exact absurd h01 (by decide)
  · intro heq
    rw [heq, hun] at hready
    exact absurd hready (by decide)


/-! ### `idn_punycode_decode` and the header of its argument -/

theorem image_four_byte (v : varlena) (h4 : v.short_header = false)
    (hlen : v.data.length + 4 < 2 ^ 30) :
    VARSIZE v.image = v.data.length + 4 ∧ VARDATA v.image = v.data ++ v.behind := by
  constructor
  · simp only [VARSIZE, varlena.image, h4, le32, Bool.false_eq_true, if_false,
      List.cons_append, List.nil_append, List.getD_cons_zero, List.getD_cons_succ]
    omega
  · simp [VARDATA, varlena.image, h4, le32]

theorem ascii_check_length_iff (l : List Nat) :
    ascii_check l l.length = true ↔ ∀ b ∈ l, 0x20 ≤ b ∧ b ≤ 0x7E := by
  unfold ascii_check
  rw [ascii_check_loop_iff]
  constructor
  · intro h b hb
    obtain ⟨j, hj, rfl⟩ := List.getElem_of_mem hb
    have := h j (Nat.zero_le j) (by omega)
    rwa [List.getD_eq_getElem l 0 hj] at this
  · intro h j _ hj
    have hj2 : j < l.length := by omega
    rw [List.getD_eq_getElem l 0 hj2]
    exact h _ (List.getElem_mem hj2)

theorem ascii_check_append (data behind : List Nat) :
    ascii_check (data ++ behind) data.length = ascii_check data data.length := by
  have h : ∀ b : Bool, (ascii_check (data ++ behind) data.length = true ↔ b = true) →
      ascii_check (data ++ behind) data.length = b := by
    intro b hb
    cases b <;> cases hx : ascii_check (data ++ behind) data.length <;> simp_all
  apply h
  unfold ascii_check
  rw [ascii_check_loop_iff, ascii_check_loop_iff]
  constructor
  · intro hall j h1 h2
    have hj : j < data.length := by omega
    have := hall j h1 h2
    rwa [List.getD_eq_getElem _ 0 (by simp; omega), List.getElem_append_left hj,
      ← List.getD_eq_getElem _ 0 hj] at this
  · intro hall j h1 h2
    have hj : j < data.length := by omega
    have := hall j h1 h2
    rwa [List.getD_eq_getElem (data ++ behind) 0 (by simp; omega), List.getElem_append_left hj,
      ← List.getD_eq_getElem _ 0 hj]

/-- The shape of a run of `idn_punycode_decode` on one non-NULL argument: if the
scan fails the run is a warning and NULL; if it succeeds and `palloc` accepts
the size of the array, the first event is the call of the decoder; and every call of the decoder in the run is on the `src`
and `srclen` that `VARDATA` and `VARSIZE` gave, with `srclen` as capacity. -/
theorem idn_punycode_decode_shape (E : Env) (v : varlena) :
    (E.stringprep_version_bad = false →
      ascii_check (VARDATA v.image) ((VARSIZE v.image + 2 ^ 32 - VARHDRSZ) % 2 ^ 32) = false →
      idn_punycode_decode E [some v] =
        { events := [.WARNING "Non-ASCII data sent to idn_punycode_decode."],
          result := some (.ok .NULL) }) ∧
    (E.stringprep_version_bad = false →
      ascii_check (VARDATA v.image) ((VARSIZE v.image + 2 ^ 32 - VARHDRSZ) % 2 ^ 32) = true →
      4 * ((VARSIZE v.image + 2 ^ 32 - VARHDRSZ) % 2 ^ 32) ≤ MaxAllocSize →
      ∃ rc, (idn_punycode_decode E [some v]).events.head? =
        some (.call (.punycode_decode ((VARSIZE v.image + 2 ^ 32 - VARHDRSZ) % 2 ^ 32)
          (VARDATA v.image) ((VARSIZE v.image + 2 ^ 32 - VARHDRSZ) % 2 ^ 32) rc))) ∧
    (∀ a b c rc, Event.call (.punycode_decode a b c rc) ∈ (idn_punycode_decode E [some v]).events →
      a = (VARSIZE v.image + 2 ^ 32 - VARHDRSZ) % 2 ^ 32 ∧ b = VARDATA v.image ∧ c = a) := by
  unfold idn_punycode_decode
  simp only [List.length_singleton, List.getD_cons_zero, ne_eq, not_true_eq_false, if_false]
  generalize VARDATA v.image = src
  generalize (VARSIZE v.image + 2 ^ 32 - VARHDRSZ) % 2 ^ 32 = n
  refine ⟨?_, ?_, ?_⟩
  · intro hver hfalse
    simp only [hver, hfalse, Bool.false_eq_true, if_false, if_true]
  · intro hver htrue hsize
    refine ⟨(E.lib.punycode_decode n src n).1, ?_⟩
    simp only [hver, htrue, Bool.false_eq_true, if_false, Bool.true_eq_false,
      not_lt.mpr hsize]
    split
    · rfl
    · split
      · rfl
      · split <;> rfl
  · intro a b c rc
    by_cases hver : E.stringprep_version_bad = true
    · simp [hver]
    · simp only [hver, if_false]
      repeat' split
      all_goals first
        | (simp; done)
        | (simp; intro h1 h2 h3 _; exact ⟨h1, h2, h3.trans h1.symm⟩)

/-- For an argument with a 4-byte header `idn_punycode_decode` does what C15
says: a byte outside 0x20..0x7E gives NULL and a warning without a call of the
decoder; otherwise, for a payload of less than 2^28 bytes (so that `palloc`
accepts the size of the array), the decoder is the first call, on the payload
with its length as input length and as capacity. -/
theorem idn_punycode_decode_four_byte (E : Env) (hver : E.stringprep_version_bad = false)
    (v : varlena) (h4 : v.short_header = false) (hlen : v.data.length + 4 < 2 ^ 30) :
    ((∃ b ∈ v.data, b < 0x20 ∨ 0x7E < b) →
      idn_punycode_decode E [some v] =
        { events := [.WARNING "Non-ASCII data sent to idn_punycode_decode."],
          result := some (.ok .NULL) }) ∧
    ((∀ b ∈ v.data, 0x20 ≤ b ∧ b ≤ 0x7E) → v.data.length < 2 ^ 28 →
      ∃ rc, (idn_punycode_decode E [some v]).events.head? =
        some (.call (.punycode_decode v.data.length (v.data ++ v.behind) v.data.length rc))) := by
  obtain ⟨hsize, hdata⟩ := image_four_byte v h4 hlen
  have hsrclen : (VARSIZE v.image + 2 ^ 32 - VARHDRSZ) % 2 ^ 32 = v.data.length := by
    rw [hsize]; unfold VARHDRSZ; omega
  obtain ⟨h1, h2, _⟩ := idn_punycode_decode_shape E v
  rw [hsrclen, hdata, ascii_check_append] at h1 h2
  refine ⟨fun hbad => h1 hver ?_, fun hgood hsmall =>
    h2 hver ((ascii_check_length_iff v.data).2 hgood) (by unfold MaxAllocSize; omega)⟩
  obtain ⟨b, hb, hout⟩ := hbad
  cases hc : ascii_check v.data v.data.length with
  | false => rfl
  | true =>
    have := (ascii_check_length_iff v.data).1 hc b hb
    omega

theorem short_abc_size (behind : List Nat) :
    VARSIZE ({ short_header := true, data := [97, 98, 99], behind := behind } : varlena).image
      = 416847938 ∧
    VARDATA ({ short_header := true, data := [97, 98, 99], behind := behind } : varlena).image
      = behind := by
  constructor
  · simp only [VARSIZE, varlena.image, if_true, List.cons_append, List.nil_append,
      List.getD_cons_zero, List.getD_cons_succ, List.length_cons, List.length_nil]
    norm_num
  · simp only [VARDATA, varlena.image, if_true, List.cons_append, List.nil_append,
      List.length_cons, List.length_nil, List.drop_succ_cons, List.drop_zero]

set_option maxRecDepth 100000 in
/-- C15 fails on a datum with a 1-byte header. For the text `abc` (all bytes
printable) handed over with a 1-byte header, `VARSIZE` reads the header byte and
the three payload bytes as a size of 416847938 and `VARDATA` points behind the
payload: whatever lies behind the datum and in any environment, the decoder is
never called on the three input bytes with capacity 3, and with nothing readable
behind the datum the call warns of non-ASCII data and returns NULL. -/
theorem idn_punycode_decode_short_header (E : Env) (behind : List Nat) :
    ascii_check [97, 98, 99] 3 = true ∧
    (∀ rc, Event.call (.punycode_decode 3 [97, 98, 99] 3 rc) ∉
      (idn_punycode_decode E
        [some { short_header := true, data := [97, 98, 99], behind := behind }]).events) ∧
    idn_punycode_decode (echoEnv 0) [some { short_header := true, data := [97, 98, 99], behind := [] }]
      = { events := [.WARNING "Non-ASCII data sent to idn_punycode_decode."],
          result := some (.ok .NULL) } ∧
    (idn_punycode_decode (echoEnv 0)
        [some { short_header := false, data := [97, 98, 99], behind := [] }]).events.head?
      = some (.call (.punycode_decode 3 [97, 98, 99] 3 0)) := by
  refine ⟨by decide, ?_, by decide, by decide⟩
  intro rc hmem
  obtain ⟨hsize, _⟩ := short_abc_size behind
  have h := ((idn_punycode_decode_shape E _).2.2 _ _ _ _ hmem).1
  rw [hsize] at h
  revert h
  decide


/-! ### Failures of the library -/

theorem libidn_stringprep_soft (E : Env) (args : List (Option varlena))
    (h : (libidn_stringprep E args).libraryFailed E.K) :
    (libidn_stringprep E args).result = some (.ok .NULL) ∧ (libidn_stringprep E args).warned := by
  revert h
  unfold libidn_stringprep
  repeat' split
  all_goals try simp_all [Run.libraryFailed, Run.warned, LibCall.reportsFailure]
  all_goals try (repeat' split)
  all_goals try simp_all [Run.libraryFailed, Run.warned, LibCall.reportsFailure]

theorem idn_punycode_encode_soft (E : Env) (args : List (Option varlena))
    (h : (idn_punycode_encode E args).libraryFailed E.K) :
    (idn_punycode_encode E args).result = some (.ok .NULL) ∧
      (idn_punycode_encode E args).warned := by
  revert h
  unfold idn_punycode_encode
  repeat' split
  all_goals try simp_all [Run.libraryFailed, Run.warned, LibCall.reportsFailure]
  all_goals try (repeat' split)
  all_goals try simp_all [Run.libraryFailed, Run.warned, LibCall.reportsFailure]

theorem idn_punycode_decode_soft (E : Env) (args : List (Option varlena))
    (h : (idn_punycode_decode E args).libraryFailed E.K) :
    (idn_punycode_decode E args).result = some (.ok .NULL) ∧
      (idn_punycode_decode E args).warned := by
  revert h
  unfold idn_punycode_decode
  split
  · simp [Run.libraryFailed]
  split
  · simp [Run.libraryFailed]
  split
  · simp [Run.libraryFailed]
  rename_i arg0 _
  generalize VARDATA arg0.image = src
  generalize (VARSIZE arg0.image + 2 ^ 32 - VARHDRSZ) % 2 ^ 32 = n
  dsimp only
  split
  · simp [Run.libraryFailed]
  split
  · simp [Run.libraryFailed]
  split
  · simp [Run.libraryFailed, Run.warned]
  split
  · simp [Run.libraryFailed, Run.warned]
  split <;> simp_all [Run.libraryFailed, Run.warned, LibCall.reportsFailure]


/-- The events of `idn_func_wrapper` are those of the wrapped function, if it
gets called at all, and a NULL of the wrapped function is passed on. -/
theorem idn_func_wrapper_events (E : Env) (func : utf8_fn) (arg0 : text) (arg1 : Int) (b : Bool) :
    (idn_func_wrapper E func arg0 arg1 b).1 = [] ∨
    ∃ u : Utf8Result, (idn_func_wrapper E func arg0 arg1 b).1
        = (func (u.utf8_src.deref arg0) u.utf8_srclen arg1).1 ∧
      ((func (u.utf8_src.deref arg0) u.utf8_srclen arg1).2 = none →
        (idn_func_wrapper E func arg0 arg1 b).2 = .ok none) := by
  unfold idn_func_wrapper
  by_cases hver : E.stringprep_version_bad = true
  · left; simp [hver]
  · cases hu : text_to_utf8 E.B arg0 true with
    | error e => left; simp [hver]
    | ok u =>
      right
      refine ⟨u, ?_, ?_⟩
      · simp only [hver, if_false]
        cases hr : (func (u.utf8_src.deref arg0) u.utf8_srclen arg1).2 with
        | none => rfl
        | some res =>
          dsimp only
          cases utf8_to_text E.B (res ++ [0]) (strlen (res ++ [0])) <;> rfl
      · intro hnone
        simp [hver, hnone]

theorem idn_func_wrapper_soft (E : Env) (func : utf8_fn) (arg0 : text) (arg1 : Int) (b : Bool)
    (hfunc : ∀ src len fl, (∃ c, Event.call c ∈ (func src len fl).1 ∧ c.reportsFailure E.K = true) →
      (func src len fl).2 = none)
    (h : ∃ c, Event.call c ∈ (idn_func_wrapper E func arg0 arg1 b).1 ∧ c.reportsFailure E.K = true) :
    (idn_func_wrapper E func arg0 arg1 b).2 = .ok none := by
  rcases idn_func_wrapper_events E func arg0 arg1 b with hnil | ⟨u, hev, hnone⟩
  · rw [hnil] at h
    simp at h
  · rw [hev] at h
    exact hnone (hfunc _ _ _ h)

theorem idn_utf8_nfkc_normalize_soft (E : Env) (args : List (Option varlena))
    (h : (idn_utf8_nfkc_normalize E args).libraryFailed E.K) :
    (idn_utf8_nfkc_normalize E args).result = some (.ok .NULL) ∧
      (idn_utf8_nfkc_normalize E args).warned := by
  revert h
  unfold idn_utf8_nfkc_normalize
  split
  · simp [Run.libraryFailed]
  split
  · simp [Run.libraryFailed]
  rename_i arg0 _
  have hfunc : ∀ src len fl, (∃ c, Event.call c ∈ (stringprep_utf8_nfkc_normalize_wrapper E src len fl).1
      ∧ c.reportsFailure E.K = true) → (stringprep_utf8_nfkc_normalize_wrapper E src len fl).2 = none := by
    intro src len fl
    simp [stringprep_utf8_nfkc_normalize_wrapper, LibCall.reportsFailure]
  have key := idn_func_wrapper_soft E (stringprep_utf8_nfkc_normalize_wrapper E) arg0.toText 0 true hfunc
  split
  · rename_i ev e heq
    intro h
    have := key (by rw [heq]; exact h)
    rw [heq] at this
    cases this
  · intro _
    simp [Run.warned]
  · rename_i ev r heq
    intro h
    have := key (by rw [heq]; exact h)
    rw [heq] at this
    cases this

theorem idna_wrappers_soft (E : Env) :
    (∀ src len fl, (∃ c, Event.call c ∈ (idna_to_unicode_8z8z_wrapper E src len fl).1 ∧
        c.reportsFailure E.K = true) → (idna_to_unicode_8z8z_wrapper E src len fl).2 = none) ∧
    (∀ src len fl, (∃ c, Event.call c ∈ (idna_to_ascii_8z_wrapper E src len fl).1 ∧
        c.reportsFailure E.K = true) → (idna_to_ascii_8z_wrapper E src len fl).2 = none) := by
  constructor
  · intro src len fl
    unfold idna_to_unicode_8z8z_wrapper
    dsimp only
    split <;> simp_all [LibCall.reportsFailure]
  · intro src len fl
    unfold idna_to_ascii_8z_wrapper
    dsimp only
    split <;> simp_all [LibCall.reportsFailure]

/-- A run of `idna_finish` with a failed library call logged a warning. -/
theorem idna_wrappers_warn (E : Env) :
    (∀ src len fl, (∃ c, Event.call c ∈ (idna_to_unicode_8z8z_wrapper E src len fl).1 ∧
        c.reportsFailure E.K = true) →
        ∃ msg, Event.WARNING msg ∈ (idna_to_unicode_8z8z_wrapper E src len fl).1) ∧
    (∀ src len fl, (∃ c, Event.call c ∈ (idna_to_ascii_8z_wrapper E src len fl).1 ∧
        c.reportsFailure E.K = true) →
        ∃ msg, Event.WARNING msg ∈ (idna_to_ascii_8z_wrapper E src len fl).1) := by
  constructor
  · intro src len fl
    unfold idna_to_unicode_8z8z_wrapper
    dsimp only
    split <;> simp_all [LibCall.reportsFailure]
  · intro src len fl
    unfold idna_to_ascii_8z_wrapper
    dsimp only
    split <;> simp_all [LibCall.reportsFailure]

theorem idna_finish_soft (E : Env) (func : utf8_fn) (arg0 : varlena) (flags : Int)
    (hfunc : ∀ src len fl, (∃ c, Event.call c ∈ (func src len fl).1 ∧ c.reportsFailure E.K = true) →
      (func src len fl).2 = none)
    (hwarn : ∀ src len fl, (∃ c, Event.call c ∈ (func src len fl).1 ∧ c.reportsFailure E.K = true) →
      ∃ msg, Event.WARNING msg ∈ (func src len fl).1)
    (h : (idna_finish E func arg0 flags).libraryFailed E.K) :
    (idna_finish E func arg0 flags).result = some (.ok .NULL) ∧
      (idna_finish E func arg0 flags).warned := by
  have hev : (idna_finish E func arg0 flags).events
      = (idn_func_wrapper E func arg0.toText flags false).1 := by
    unfold idna_finish
    split <;> simp_all
  have hfail : ∃ c, Event.call c ∈ (idn_func_wrapper E func arg0.toText flags false).1 ∧
      c.reportsFailure E.K = true := by
    rw [← hev]; exact h
  have key := idn_func_wrapper_soft E func arg0.toText flags false hfunc hfail
  constructor
  · unfold idna_finish
    split <;> simp_all
  · unfold Run.warned
    rw [hev]
    rcases idn_func_wrapper_events E func arg0.toText flags false with hnil | ⟨u, hev2, _⟩
    · rw [hnil] at hfail; simp at hfail
    · rw [hev2] at hfail ⊢
      exact hwarn _ _ _ hfail

/-- A run that the `switch` finishes has no events. -/
theorem flags_switch_inl_events (E : Env) (scope : constant_scope) (args : List (Option varlena))
    (run : Run) (h : flags_switch E scope args = .inl run) : run.events = [] := by
  unfold flags_switch at h
  split at h
  · dsimp only at h
    split at h
    · cases h; rfl
    · cases h; rfl
    · split at h
      · cases h; rfl
      · cases h
  · cases h; rfl

theorem idn_idna_decode_soft (E : Env) (args : List (Option varlena))
    (h : (idn_idna_decode E args).libraryFailed E.K) :
    (idn_idna_decode E args).result = some (.ok .NULL) ∧ (idn_idna_decode E args).warned := by
  revert h
  unfold idn_idna_decode
  cases hs : flags_switch E .SCOPE_IDNA args with
  | inl run =>
    intro h
    have := flags_switch_inl_events E _ args run hs
    simp [Run.libraryFailed, this] at h
  | inr p =>
    obtain ⟨flags, arg0⟩ := p
    exact idna_finish_soft E _ arg0 flags (idna_wrappers_soft E).1 (idna_wrappers_warn E).1

theorem idn_idna_encode_soft (E : Env) (args : List (Option varlena))
    (h : (idn_idna_encode E args).libraryFailed E.K) :
    (idn_idna_encode E args).result = some (.ok .NULL) ∧ (idn_idna_encode E args).warned := by
  revert h
  unfold idn_idna_encode
  cases hs : flags_switch E .SCOPE_IDNA args with
  | inl run =>
    intro h
    have := flags_switch_inl_events E _ args run hs
    simp [Run.libraryFailed, this] at h
  | inr p =>
    obtain ⟨flags, arg0⟩ := p
    exact idna_finish_soft E _ arg0 flags (idna_wrappers_soft E).2 (idna_wrappers_warn E).2

theorem libidn2_lookup_soft (E : Env) (args : List (Option varlena))
    (h : (libidn2_lookup E args).libraryFailed E.K) :
    (libidn2_lookup E args).result = some (.ok .NULL) ∧ (libidn2_lookup E args).warned := by
  revert h
  unfold libidn2_lookup
  cases hs : flags_switch E .SCOPE_IDNA2 args with
  | inl run =>
    intro h
    have := flags_switch_inl_events E _ args run hs
    simp [Run.libraryFailed, this] at h
  | inr p =>
    obtain ⟨flags, arg0⟩ := p
    dsimp only
    cases hu : text_to_utf8 E.B arg0.toText true with
    | error e => simp [Run.libraryFailed]
    | ok u =>
      dsimp only
      split
      · simp [Run.libraryFailed, Run.warned]
      · rename_i hrc
        split <;> simp_all [Run.libraryFailed, Run.warned, LibCall.reportsFailure]

/-- After the labels were read, a failure of `idn2_register_u8` gives a warning
and NULL, unless `ulabel_needs_free` is set for a NULL U-label. -/
theorem libidn2_register_rest_soft (E : Env) (args : List (Option varlena))
    (u a : Option (List Nat)) (b : Bool) (hb : ¬ (b = true ∧ u = none))
    (h : (libidn2_register_rest E args u a b).libraryFailed E.K) :
    (libidn2_register_rest E args u a b).result = some (.ok .NULL) ∧
      (libidn2_register_rest E args u a b).warned := by
  revert h
  unfold libidn2_register_rest
  split
  · simp [Run.libraryFailed]
  dsimp only
  split
  · simp [Run.libraryFailed]
  · simp [Run.libraryFailed]
  · split
    · simp [Run.libraryFailed, Run.warned]
    · split <;> simp_all [Run.libraryFailed, Run.warned, LibCall.reportsFailure]

/-- With a U-label that is not NULL, a failure of `idn2_register_u8` gives a
warning and NULL. -/
theorem libidn2_register_soft (E : Env) (args : List (Option varlena))
    (h0 : args.getD 0 none ≠ none)
    (h : (libidn2_register E args).libraryFailed E.K) :
    (libidn2_register E args).result = some (.ok .NULL) ∧ (libidn2_register E args).warned := by
  revert h
  unfold libidn2_register
  split
  · simp [Run.libraryFailed]
  cases h00 : args.getD 0 none with
  | none => exact absurd h00 h0
  | some arg0 =>
    dsimp only
    cases hu : text_to_utf8 E.B arg0.toText true with
    | error e => simp [Run.libraryFailed]
    | ok u =>
      dsimp only
      split
      · split
        · simp [Run.libraryFailed, Run.warned]
        · exact libidn2_register_rest_soft E args _ _ _ (by simp)
      · exact libidn2_register_rest_soft E args _ _ _ (by simp)

/-- In `idn_pr29_check` a failure code of `pr29_8z` gives a warning and the
boolean false. -/
theorem idn_pr29_check_failure (E : Env) (args : List (Option varlena))
    (h : (idn_pr29_check E args).libraryFailed E.K) :
    (idn_pr29_check E args).result = some (.ok (.BOOL false)) ∧ (idn_pr29_check E args).warned := by
  revert h
  unfold idn_pr29_check
  split
  · simp [Run.libraryFailed]
  split
  · simp [Run.libraryFailed]
  split
  · simp [Run.libraryFailed]
  dsimp only
  intro h
  unfold Run.libraryFailed at h
  obtain ⟨c, hc, hf⟩ := h
  dsimp only at hc
  split at hc
  · rename_i hcond
    simp only [List.mem_append, List.mem_singleton, Event.call.injEq, reduceCtorEq, or_false] at hc
    subst hc
    simp [Run.warned, hcond]
  · rename_i hcond
    simp only [List.mem_singleton, Event.call.injEq] at hc
    subst hc
    simp only [LibCall.reportsFailure, decide_eq_true_eq] at hf
    exact absurd hf hcond

/-- C11 as stated fails for `idn_pr29_check`: with a library whose `pr29_8z`
returns the failure code 2, the call on the text `a` logs a warning and returns
the boolean false, not NULL. -/
theorem pr29_failure_counterexample :
    (EntryPoint.run (echoEnv 2) [some { short_header := false, data := [97], behind := [] }]
      .idn_pr29_check).libraryFailed (echoEnv 2).K ∧
    (EntryPoint.run (echoEnv 2) [some { short_header := false, data := [97], behind := [] }]
      .idn_pr29_check).result = some (.ok (.BOOL false)) ∧
    (EntryPoint.run (echoEnv 2) [some { short_header := false, data := [97], behind := [] }]
      .idn_pr29_check).result ≠ some (.ok .NULL) :=
  ⟨⟨.pr29_8z [97, 0] 2, by decide, by decide⟩, by decide, by decide⟩

/-- C11, amended. When a library call of an entry point reports a failure, the
call raises no error and logs a warning; its result is NULL for every entry
point but `idn_pr29_check`, whose result is the boolean false. For
`libidn2_register` this is about the calls with a U-label that is not NULL. -/
theorem library_failure_soft (E : Env) (ep : EntryPoint) (args : List (Option varlena))
    (hulabel : ep = .libidn2_register → args.getD 0 none ≠ none)
    (h : (ep.run E args).libraryFailed E.K) :
    (ep.run E args).warned ∧
    (ep ≠ .idn_pr29_check → (ep.run E args).result = some (.ok .NULL)) ∧
    (ep = .idn_pr29_check → (ep.run E args).result = some (.ok (.BOOL false))) := by
  cases ep
  case idn_pr29_check =>
    have := idn_pr29_check_failure E args h
    exact ⟨this.2, fun hne => absurd rfl hne, fun _ => this.1⟩
  case libidn_stringprep =>
    have := libidn_stringprep_soft E args h
    exact ⟨this.2, fun _ => this.1, fun he => by cases he⟩
  case idn_punycode_encode =>
    have := idn_punycode_encode_soft E args h
    exact ⟨this.2, fun _ => this.1, fun he => by cases he⟩
  case idn_punycode_decode =>
    have := idn_punycode_decode_soft E args h
    exact ⟨this.2, fun _ => this.1, fun he => by cases he⟩
  case idn_utf8_nfkc_normalize =>
    have := idn_utf8_nfkc_normalize_soft E args h
    exact ⟨this.2, fun _ => this.1, fun he => by cases he⟩
  case idn_idna_encode =>
    have := idn_idna_encode_soft E args h
    exact ⟨this.2, fun _ => this.1, fun he => by cases he⟩
  case idn_idna_decode =>
    have := idn_idna_decode_soft E args h
    exact ⟨this.2, fun _ => this.1, fun he => by cases he⟩
  case libidn2_lookup =>
    have := libidn2_lookup_soft E args h
    exact ⟨this.2, fun _ => this.1, fun he => by cases he⟩
  case libidn2_register =>
    have := libidn2_register_soft E args (hulabel rfl) h
    exact ⟨this.2, fun _ => this.1, fun he => by cases he⟩

set_option maxRecDepth 100000 in
/-- C11, amended, on a library whose `idn2_register_u8` returns the failure code
5: `libidn2_register` on the U-label `a`, a NULL A-label and NULL flags returns
NULL. -/
theorem library_failure_soft_witness :
    (EntryPoint.libidn2_register = .libidn2_register →
      [some ({ short_header := false, data := [97], behind := [] } : varlena), none, none].getD 0
        none ≠ none) ∧
    (EntryPoint.run (echoEnv 5)
      [some { short_header := false, data := [97], behind := [] }, none, none]
      .libidn2_register).libraryFailed (echoEnv 5).K ∧
    (EntryPoint.run (echoEnv 5)
      [some { short_header := false, data := [97], behind := [] }, none, none]
      .libidn2_register).result = some (.ok .NULL) :=
  have h : (EntryPoint.run (echoEnv 5)
      [some { short_header := false, data := [97], behind := [] }, none, none]
      .libidn2_register).libraryFailed (echoEnv 5).K :=
    ⟨.idn2_register_u8 (some [97, 0]) none 0 5, by decide, by decide⟩
  ⟨fun _ => by decide, h,
    (library_failure_soft (echoEnv 5) .libidn2_register _ (fun _ => by decide) h).2.1
      (by decide)⟩

set_option maxRecDepth 100000 in
/-- What the amended C11 leaves out: `libidn2_register` with a NULL U-label reads
`ulabel_needs_free` without a value assigned; when the variable happens to hold
true, the source calls `pfree(NULL)` right after the library call, whether the
library failed or not. -/
theorem register_null_ulabel_pfree :
    libidn2_register
      { L := cLocale, table := readyTable cLocale libidn, stringprep_version_bad := false,
        B := utf8Backend, lib := echoLibrary 5, K := libidnCodes,
        uninitialised_ulabel_needs_free := true }
      [none, some { short_header := false, data := [97], behind := [] }, none] =
      { events := [.call (.idn2_register_u8 none (some [97, 0]) 0 5)],
        result := some (.error .pfree_null) } := by
  decide

/-! ### Unknown flag names in the entry points -/

/-- The parse of a string whose leftmost unresolved segment is `seg` is the
error for `seg`. -/
theorem parse_first_unresolved (L : CtypeLocale) (table : List idn_constants_struct)
    (scope : constant_scope) (str seg : List Nat) (hstr : 0 ∉ str)
    (h : FirstUnresolved L table scope str seg) :
    parse_constant_multi L table scope str = some (.error (.unknown_constant seg)) := by
  obtain ⟨pre, post, hsplit, hpre, hseg⟩ := h
  have hj : [124].intercalate (pre ++ seg :: post) = str := by
    rw [← hsplit]; exact List.intercalate_splitOn str 124
  have hwf : ∀ n ∈ pre ++ seg :: post, 124 ∉ n ∧ 0 ∉ n := by
    intro n hn
    rw [← hsplit] at hn
    obtain ⟨h1, h2⟩ := splitOn_piece 124 str n hn
    exact ⟨h1, fun h0 => hstr (h2 0 h0)⟩
  have hlen := length_le_intercalate (pre ++ seg :: post)
  rw [hj] at hlen
  unfold parse_constant_multi
  have := loop_first_unresolved L table scope seg post pre (str.length + 1) 0
    (by simp at hlen; omega) hwf hpre hseg
  rw [hj] at this
  exact this

/-- With two arguments and flags whose leftmost unresolved segment is `seg`, the
`switch` ends the run with the error for `seg`, whatever the first argument is. -/
theorem flags_switch_unknown (E : Env) (scope : constant_scope) (a0 : Option varlena)
    (f : varlena) (seg : List Nat) (hf0 : 0 ∉ f.data)
    (h : FirstUnresolved E.L E.table scope f.data seg) :
    flags_switch E scope [a0, some f] =
      .inl { events := [], result := some (.error (.unknown_constant seg)) } := by
  have hp : parse_text_arg_flags E f.toText scope = some (.error (.unknown_constant seg)) :=
    parse_first_unresolved E.L E.table scope f.data seg hf0 h
  simp [flags_switch, hp]

/-- C12 as stated fails for `libidn2_register`: with the unknown flag name
`BOGUS`, an A-label with the byte 0xE9 gives a warning and NULL, and two NULL
labels give the error "Only one of ulabel, alabel may be NULL."; in neither case
the error "Unknown constant name" is raised. -/
theorem register_unknown_flag_counterexample :
    FirstUnresolved (echoEnv 0).L (echoEnv 0).table .SCOPE_IDNA2 (bytes "BOGUS") (bytes "BOGUS") ∧
    libidn2_register (echoEnv 0)
      [some { short_header := false, data := [97], behind := [] },
       some { short_header := false, data := [233], behind := [] },
       some { short_header := false, data := bytes "BOGUS", behind := [] }] =
      { events := [.WARNING "Non-ASCII data sent to idn_punycode_decode."],
        result := some (.ok .NULL) } ∧
    libidn2_register (echoEnv 0)
      [none, none, some { short_header := false, data := bytes "BOGUS", behind := [] }] =
      { events := [], result := some (.error .both_labels_null) } :=
  ⟨⟨[], [], by decide, by decide, by decide⟩, by decide, by decide⟩

theorem text_to_utf8_error (B : Backend) (arg : text) (force_new : Bool) (e : PgError)
    (h : text_to_utf8 B arg force_new = .error e) : e = .encoding_conversion := by
  unfold text_to_utf8 at h
  dsimp only at h
  split at h
  · simpa using h.symm
  · split at h <;> simp at h
  · simp at h

/-- The scan of the copy of the A-label is the scan of the bytes of the label. -/
theorem ascii_check_copy (l : List Nat) :
    ascii_check (l ++ [0]) l.length = true ↔ ∀ b ∈ l, 0x20 ≤ b ∧ b ≤ 0x7E := by
  rw [ascii_check_append, ascii_check_length_iff]

/-- With flags that do not parse, what is left of `libidn2_register` after the
labels were read ends with the error of the parse, unless both labels are
NULL. -/
theorem libidn2_register_rest_flags_error (E : Env) (a0 a1 : Option varlena) (f : varlena)
    (e : PgError) (hp : parse_text_arg_flags E f.toText .SCOPE_IDNA2 = some (.error e))
    (u a : Option (List Nat)) (b : Bool) (hne : ¬ (u = none ∧ a = none)) :
    libidn2_register_rest E [a0, a1, some f] u a b =
      { events := [], result := some (.error e) } := by
  simp [libidn2_register_rest, hne, hp]

/-- The run of `libidn2_register` on flags whose parse is the error `e`, by
cases on the labels, in the order of the source. -/
theorem libidn2_register_flags_error (E : Env) (a0 a1 : Option varlena) (f : varlena)
    (e : PgError) (hp : parse_text_arg_flags E f.toText .SCOPE_IDNA2 = some (.error e)) :
    (∀ v c, a0 = some v → text_to_utf8 E.B v.toText true = .error c →
      libidn2_register E [a0, a1, some f] = { events := [], result := some (.error c) }) ∧
    ((∀ v, a0 = some v → ∃ u, text_to_utf8 E.B v.toText true = .ok u) →
      ∀ v, a1 = some v → (∃ b ∈ v.data, b < 0x20 ∨ 0x7E < b) →
      libidn2_register E [a0, a1, some f] =
        { events := [.WARNING "Non-ASCII data sent to idn_punycode_decode."],
          result := some (.ok .NULL) }) ∧
    (a0 = none → a1 = none →
      libidn2_register E [a0, a1, some f] =
        { events := [], result := some (.error .both_labels_null) }) ∧
    ((∀ v, a0 = some v → ∃ u, text_to_utf8 E.B v.toText true = .ok u) →
      (∀ v, a1 = some v → ∀ b ∈ v.data, 0x20 ≤ b ∧ b ≤ 0x7E) →
      ¬ (a0 = none ∧ a1 = none) →
      libidn2_register E [a0, a1, some f] = { events := [], result := some (.error e) }) := by
  have hrest := libidn2_register_rest_flags_error E a0 a1 f e hp
  have hbad : ∀ v : varlena, (∃ b ∈ v.data, b < 0x20 ∨ 0x7E < b) →
      ascii_check (v.data ++ [0]) v.data.length = false := by
    intro v ⟨b, hb, hout⟩
    cases hc : ascii_check (v.data ++ [0]) v.data.length with
    | false => rfl
    | true =>
      have := (ascii_check_copy v.data).1 hc b hb
      omega
  refine ⟨?_, ?_, ?_, ?_⟩
  · intro v c h0 hc
    subst h0
    simp [libidn2_register, hc]
  · intro hu v h1 hout
    subst h1
    have hb := hbad v hout
    cases a0 with
    | none => simp [libidn2_register, varlena.toText, hb]
    | some v0 =>
      obtain ⟨u, hu0⟩ := hu v0 rfl
      simp [libidn2_register, varlena.toText, hb, hu0]
      simp only [varlena.toText] at hu0
      simp [hu0, hb]
  · intro h0 h1
    subst h0 h1
    simp [libidn2_register, libidn2_register_rest]
  · intro hu ha hboth
    cases a0 with
    | none =>
      cases a1 with
      | none => exact absurd ⟨rfl, rfl⟩ hboth
      | some v1 =>
        have h1 := (ascii_check_copy v1.data).2 (ha v1 rfl)
        simp [libidn2_register, varlena.toText, h1, hrest]
    | some v0 =>
      obtain ⟨u, hu0⟩ := hu v0 rfl
      cases a1 with
      | none => simp [libidn2_register, hu0, hrest]
      | some v1 =>
        have h1 := (ascii_check_copy v1.data).2 (ha v1 rfl)
        simp [libidn2_register, varlena.toText, hu0, h1, hrest]
        simp only [varlena.toText] at hu0
        simp [hu0, hrest]

/-- C12, amended. When the flags argument is given, is not NULL and has a
leftmost segment `seg` that does not resolve in the scope of the entry point,
then `libidn_stringprep` (the stringprep version check passing),
`idn_idna_encode`, `idn_idna_decode` and `libidn2_lookup` leave with the error
"Unknown constant name" for `seg` before any library call, whatever the other
arguments are, NULL included. `libidn2_register` looks at its labels first. It
leaves with that error, before any library call, exactly when the U-label is
NULL or converts to UTF-8, the A-label is NULL or has bytes in 0x20..0x7E only,
and not both labels are NULL. Otherwise its outcome is, in this order: the error
of the conversion when the conversion of the U-label raises one; a warning and
NULL when the A-label has a byte outside 0x20..0x7E; the error "Only one of
ulabel, alabel may be NULL." when both labels are NULL. -/
theorem unknown_flag_hard (E : Env) (f : varlena) (seg : List Nat) (hf0 : 0 ∉ f.data)
    (a0 a1 : Option varlena) :
    (FirstUnresolved E.L E.table .SCOPE_STRINGPREP f.data seg →
      E.stringprep_version_bad = false →
      libidn_stringprep E [a0, a1, some f] =
        { events := [], result := some (.error (.unknown_constant seg)) }) ∧
    (FirstUnresolved E.L E.table .SCOPE_IDNA f.data seg →
      idn_idna_encode E [a0, some f] =
        { events := [], result := some (.error (.unknown_constant seg)) } ∧
      idn_idna_decode E [a0, some f] =
        { events := [], result := some (.error (.unknown_constant seg)) }) ∧
    (FirstUnresolved E.L E.table .SCOPE_IDNA2 f.data seg →
      libidn2_lookup E [a0, some f] =
        { events := [], result := some (.error (.unknown_constant seg)) }) ∧
    (FirstUnresolved E.L E.table .SCOPE_IDNA2 f.data seg →
      (libidn2_register E [a0, a1, some f] =
          { events := [], result := some (.error (.unknown_constant seg)) } ↔
        (∀ v, a0 = some v → ∃ u, text_to_utf8 E.B v.toText true = .ok u) ∧
        (∀ v, a1 = some v → ∀ b ∈ v.data, 0x20 ≤ b ∧ b ≤ 0x7E) ∧
        ¬ (a0 = none ∧ a1 = none)) ∧
      (∀ v e, a0 = some v → text_to_utf8 E.B v.toText true = .error e →
        libidn2_register E [a0, a1, some f] = { events := [], result := some (.error e) }) ∧
      ((∀ v, a0 = some v → ∃ u, text_to_utf8 E.B v.toText true = .ok u) →
        ∀ v, a1 = some v → (∃ b ∈ v.data, b < 0x20 ∨ 0x7E < b) →
        libidn2_register E [a0, a1, some f] =
          { events := [.WARNING "Non-ASCII data sent to idn_punycode_decode."],
            result := some (.ok .NULL) }) ∧
      (a0 = none → a1 = none →
        libidn2_register E [a0, a1, some f] =
          { events := [], result := some (.error .both_labels_null) })) := by
  refine ⟨?_, ?_, ?_, ?_⟩
  · intro h hver
    have hp : parse_constant_multi E.L E.table .SCOPE_STRINGPREP (text_to_cstring f.toText)
        = some (.error (.unknown_constant seg)) :=
      parse_first_unresolved E.L E.table _ f.data seg hf0 h
    simp [libidn_stringprep, hver, hp]
  · intro h
    have hs := flags_switch_unknown E .SCOPE_IDNA a0 f seg hf0 h
    constructor
    · simp only [idn_idna_encode, hs]
    · simp only [idn_idna_decode, hs]
  · intro h
    have hs := flags_switch_unknown E .SCOPE_IDNA2 a0 f seg hf0 h
    simp only [libidn2_lookup, hs]
  · intro h
    have hp : parse_text_arg_flags E f.toText .SCOPE_IDNA2
        = some (.error (.unknown_constant seg)) :=
      parse_first_unresolved E.L E.table _ f.data seg hf0 h
    obtain ⟨hA, hB, hC, hD⟩ := libidn2_register_flags_error E a0 a1 f _ hp
    refine ⟨⟨fun hrun => ?_, fun hc => hD hc.1 hc.2.1 hc.2.2⟩, hA, hB, hC⟩
    have hconv : ∀ v, a0 = some v → ∃ u, text_to_utf8 E.B v.toText true = .ok u := by
      intro v hv
      cases hu : text_to_utf8 E.B v.toText true with
      | ok u => exact ⟨u, rfl⟩
      | error c =>
        have hc := text_to_utf8_error _ _ _ _ hu
        subst hc
        have := hA v _ hv hu
        rw [hrun] at this
        simp at this
    refine ⟨hconv, ?_, ?_⟩
    · intro v hv b hb
      by_contra hout
      have := hB hconv v hv ⟨b, hb, by omega⟩
      rw [hrun] at this
      simp at this
    · intro hboth
      have := hC hboth.1 hboth.2
      rw [hrun] at this
      simp at this

set_option maxRecDepth 100000 in
/-- C12, amended, for `idn_idna_encode` with a NULL first argument and the flags
`IDNA_FLAG_NONE|NOT_A_REAL_FLAG`, and for `libidn2_register` with the U-label
`a`, a NULL A-label and the flags `BOGUS`. -/
theorem unknown_flag_hard_witness :
    0 ∉ bytes "IDNA_FLAG_NONE|NOT_A_REAL_FLAG" ∧
    FirstUnresolved (echoEnv 0).L (echoEnv 0).table .SCOPE_IDNA
      (bytes "IDNA_FLAG_NONE|NOT_A_REAL_FLAG") (bytes "NOT_A_REAL_FLAG") ∧
    idn_idna_encode (echoEnv 0)
      [none, some { short_header := true, data := bytes "IDNA_FLAG_NONE|NOT_A_REAL_FLAG",
                    behind := [] }] =
      { events := [], result := some (.error (.unknown_constant (bytes "NOT_A_REAL_FLAG"))) } ∧
    0 ∉ bytes "BOGUS" ∧
    FirstUnresolved (echoEnv 0).L (echoEnv 0).table .SCOPE_IDNA2 (bytes "BOGUS") (bytes "BOGUS") ∧
    libidn2_register (echoEnv 0)
      [some { short_header := false, data := [97], behind := [] }, none,
       some { short_header := false, data := bytes "BOGUS", behind := [] }] =
      { events := [], result := some (.error (.unknown_constant (bytes "BOGUS"))) } :=
  have hf : FirstUnresolved (echoEnv 0).L (echoEnv 0).table .SCOPE_IDNA
      (bytes "IDNA_FLAG_NONE|NOT_A_REAL_FLAG") (bytes "NOT_A_REAL_FLAG") :=
    ⟨[bytes "IDNA_FLAG_NONE"], [], by decide, by decide, by decide⟩
  have hf2 : FirstUnresolved (echoEnv 0).L (echoEnv 0).table .SCOPE_IDNA2
      (bytes "BOGUS") (bytes "BOGUS") :=
    ⟨[], [], by decide, by decide, by decide⟩
  ⟨by decide, hf,
    ((unknown_flag_hard (echoEnv 0)
      { short_header := true, data := bytes "IDNA_FLAG_NONE|NOT_A_REAL_FLAG", behind := [] }
      (bytes "NOT_A_REAL_FLAG") (by decide) none none).2.1 hf).1,
    by decide, hf2,
    ((unknown_flag_hard (echoEnv 0)
      { short_header := false, data := bytes "BOGUS", behind := [] }
      (bytes "BOGUS") (by decide)
      (some { short_header := false, data := [97], behind := [] }) none).2.2.2 hf2).1.2
      ⟨fun _ _ => ⟨_, rfl⟩, fun _ hv => (nomatch hv), fun hb => (nomatch hb.1)⟩⟩

/-! ### The three ways to give no flags -/

end Idn
